import Mathlib

/-!
Verification of the query-construction and request-splitting engine of the
`pastime` library (`src/pastime/field.py`, `src/pastime/lookup.py`,
`src/pastime/statcast/query.py`).

Conventions of the shallow embedding:
* Python `float` values handled by the metric fields are modelled as `ℚ`
  (every literal exercised by the code and by the properties below is exact
  in binary floating point, so rational arithmetic agrees with the source).
* A Python URL-parameter dict `dict[str, list[str]]` is modelled as an
  association list `List (String × List String)`.
* Raising an exception is modelled with `Except`: `.error` carries a
  constructor per exception class of `pastime/exceptions.py`.
* Python truthiness of an optional number (`if value:`) is `Option ℚ`
  being `some q` with `q ≠ 0`; truthiness of a list is nonemptiness.
-/

namespace Pastime

/-- Exception classes of `pastime/exceptions.py` (plus the Python built-in
`KeyError`/`IndexError`, which some code paths can raise), with the payloads
the properties below need. -/
inductive PError where
  | fieldValueError (value : String)
  | fieldTypeError
  | tooManyValuesError (maxValues : Nat)
  | lessThanLowerBoundError (value bound : ℚ)
  | moreThanUpperBoundError (value bound : ℚ)
  | invalidBoundError (minValue maxValue : ℚ)
  | idNotFoundError (playerId : String)
  | keyError
  | indexError
  deriving Repr, DecidableEq

/-- A URL-parameter mapping `dict[str, list[str]]`, as an association list. -/
abbrev Params := List (String × List String)

/-- `params.get(key)` on the modelled dict. -/
def Params.get (ps : Params) (k : String) : Option (List String) :=
  (ps.find? (fun p => p.1 == k)).map (·.2)

/-- Python truthiness of an optional float (`None` and `0.0` are falsy). -/
def truthy : Option ℚ → Bool
  | none => false
  | some q => q != 0

/-- CPython `str()` of a float that is an integer (`str(0.0) = "0.0"`,
`str(-5.0) = "-5.0"`); the code only renders metric bounds with it and the
properties below only evaluate it at integral values. -/
def floatStr (q : ℚ) : String :=
  if q.den = 1 then toString q.num ++ ".0" else toString q

/-! ## MetricField (`field.py`, `MetricField`)

Configuration of a metric-range field: its URL slug and the declared
`min_value`/`max_value` domain. -/

structure MetricField where
  slug : String
  min_value : Option ℚ := none
  max_value : Option ℚ := none

/-- The argument passed to `MetricField.get_params`: Python `None`, a single
number, or a sequence of numbers-or-`None`s. -/
inductive MetricInput where
  | noneI
  | scalar (v : ℚ)
  | list (vs : List (Option ℚ))

namespace MetricField

/-- `MetricField._validate_metric`: `None` stays `None`, numbers are
converted to float (the identity on our `ℚ` model; a `date` input would
raise `FieldTypeError`, which the `Option ℚ` input type already excludes). -/
def validate_metric (v : Option ℚ) : Option ℚ := v

/-- `MetricField._validate_values`: normalise the argument to a
lower/upper-bound pair.  An empty or `None` argument gives `(None, None)`;
a scalar is used for both bounds; a sequence of more than two items raises
`TooManyValuesError`; a one-item sequence hits `values[1]` and raises
`IndexError` in the source. -/
def validate_values (_f : MetricField) (values : MetricInput) :
    Except PError (Option ℚ × Option ℚ) :=
  match values with
  | .noneI => .ok (none, none)
  | .scalar q => .ok (some q, some q)
  | .list [] => .ok (none, none)
  | .list [_] => .error .indexError
  | .list [a, b] => .ok (validate_metric a, validate_metric b)
  | .list _ => .error (.tooManyValuesError 2)

/-- `MetricField._get_range_extremes`: check the supplied bounds against the
field's declared domain and against each other.  Each check is guarded by
Python truthiness of the bound (`if min_value:` / `if max_value:`), so a
`None` bound — and a bound equal to `0` — skips its checks.  A missing
declared `min_value`/`max_value` is `-inf`/`inf` in the source, against
which the comparison can never fire. -/
def get_range_extremes (f : MetricField) (mv : Option ℚ × Option ℚ) :
    Except PError (Option ℚ × Option ℚ) :=
  let min_value := mv.1
  let max_value := mv.2
  if truthy min_value &&
      (match f.min_value with | some m => decide (min_value.getD 0 < m) | none => false) then
    .error (.lessThanLowerBoundError (min_value.getD 0) ((f.min_value).getD 0))
  else if truthy max_value &&
      (match f.max_value with | some m => decide (m < max_value.getD 0) | none => false) then
    .error (.moreThanUpperBoundError (max_value.getD 0) ((f.max_value).getD 0))
  else if truthy min_value && truthy max_value &&
      decide (max_value.getD 0 < min_value.getD 0) then
    .error (.invalidBoundError (min_value.getD 0) (max_value.getD 0))
  else
    .ok (min_value, max_value)

/-- `MetricField.get_params`: validate, check the bounds, and emit the three
wire parameters (`metric`, `metric_gt`, `metric_lt`); a missing bound is the
empty string on the wire. -/
def get_params (f : MetricField) (values : MetricInput) : Except PError Params := do
  let mv ← f.validate_values values
  let (mn, mx) ← f.get_range_extremes mv
  .ok [("metric", [f.slug]),
       ("metric_gt", [match mn with | some q => floatStr q | none => ""]),
       ("metric_lt", [match mx with | some q => floatStr q | none => ""])]

end MetricField

instance {ε α : Type} [DecidableEq ε] [DecidableEq α] : DecidableEq (Except ε α) :=
  fun a b =>
    match a, b with
    | .ok a, .ok b =>
      if h : a = b then .isTrue (by rw [h]) else .isFalse (fun he => h (Except.ok.inj he))
    | .error a, .error b =>
      if h : a = b then .isTrue (by rw [h]) else .isFalse (fun he => h (Except.error.inj he))
    | .ok _, .error _ => .isFalse Except.noConfusion
    | .error _, .ok _ => .isFalse Except.noConfusion

/-- Whether an encoding attempt succeeded. -/
def isOkB {α : Type} : Except PError α → Bool
  | .ok _ => true
  | .error _ => false

/-- Whether an encoding attempt raised `InvalidBoundError`. -/
def isInvalidBound {α : Type} : Except PError α → Bool
  | .error (.invalidBoundError _ _) => true
  | _ => false

/-- A supplied bound for `MetricField.get_range_extremes` violates the
declared lower end of the domain. -/
def belowDomain (f : MetricField) (v : Option ℚ) : Prop :=
  truthy v = true ∧ ∃ m, f.min_value = some m ∧ v.getD 0 < m

/-- A supplied bound for `MetricField.get_range_extremes` violates the
declared upper end of the domain. -/
def aboveDomain (f : MetricField) (v : Option ℚ) : Prop :=
  truthy v = true ∧ ∃ m, f.max_value = some m ∧ m < v.getD 0

/--
C4 (amended): for every MetricRange field with a declared
`[min_value, max_value]` domain, a supplied (truthy) bound lying outside the
domain is NOT clamped: `_get_range_extremes` raises
`LessThanLowerBoundError`/`MoreThanUpperBoundError`, so `get_params` fails;
in particular `get_params([None, 10])` on a field with `max_value = 8`
raises `MoreThanUpperBoundError(10, 8)` instead of emitting an upper bound
of `8`.
-/
theorem C4_out_of_domain_bound_rejected (f : MetricField) (lo hi : Option ℚ)
    (h : belowDomain f lo ∨ aboveDomain f hi) :
    isOkB (f.get_range_extremes (lo, hi)) = false ∧
    MetricField.get_params { slug := "m", max_value := some 8 }
        (.list [none, some 10]) = .error (.moreThanUpperBoundError 10 8) := by
  refine ⟨?_, rfl⟩
  unfold MetricField.get_range_extremes
  rcases h with ⟨ht, m, hm, hv⟩ | ⟨ht, m, hm, hv⟩
  · simp only [hm, ht]
    rw [if_pos (by simp [decide_eq_true hv])]
    rfl
  · by_cases h1 : (truthy lo &&
      (match f.min_value with | some m => decide (lo.getD 0 < m) | none => false)) = true
    · rw [if_pos h1]; rfl
    · rw [if_neg (by simp [h1]), if_pos (by simp [hm, ht, decide_eq_true hv])]
      rfl

/-- Witness for C4 at the concrete input from the claim. -/
theorem C4_out_of_domain_bound_rejected_witness :
    isOkB (MetricField.get_range_extremes { slug := "m", max_value := some 8 }
      (none, some 10)) = false :=
  (C4_out_of_domain_bound_rejected { slug := "m", max_value := some 8 } none (some 10)
    (Or.inr ⟨rfl, 8, rfl, by norm_num⟩)).1

/--
C4 counterexample: the claim as stated is false — `get_params([None, 10])`
on a MetricRange field with `max_value = 8` raises
`MoreThanUpperBoundError` rather than succeeding with the upper bound
clamped to `8`.
-/
theorem C4_counterexample :
    MetricField.get_params { slug := "m", max_value := some 8 }
        (.list [none, some 10]) = .error (.moreThanUpperBoundError 10 8) ∧
    ∀ ps : Params,
      MetricField.get_params { slug := "m", max_value := some 8 }
        (.list [none, some 10]) ≠ .ok ps := by
  refine ⟨rfl, fun ps h => ?_⟩
  rw [show MetricField.get_params { slug := "m", max_value := some 8 }
        (.list [none, some 10]) = .error (.moreThanUpperBoundError 10 8) from rfl] at h
  exact Except.noConfusion h

/--
C8: the code contradicts its own docstring ("InvalidBoundError: if the lower
bound provided is higher than the upper bound provided"): a zero bound is
falsy in Python, so `get_params([0, -5])` succeeds even though the lower
bound `0` exceeds the upper bound `-5`; with both bounds nonzero the check
does fire (`get_params([5, 3])` raises `InvalidBoundError`).
-/
theorem C8_invalid_bound_check_skipped_for_zero :
    MetricField.get_params { slug := "m" } (.list [some 0, some (-5)]) =
      .ok [("metric", ["m"]), ("metric_gt", ["0.0"]), ("metric_lt", ["-5.0"])] ∧
    MetricField.get_params { slug := "m" } (.list [some 5, some 3]) =
      .error (.invalidBoundError 5 3) :=
  ⟨rfl, rfl⟩

/--
C10: a supplied metric bound equal to `0` bypasses all bound validation:
with `0` as the lower bound the result is independent of the declared
`min_value` and the `InvalidBoundError` ordering check can never fire; with
`0` as the upper bound the result is independent of the declared `max_value`
and the ordering check can never fire; in particular `get_params([0, -5])`
succeeds, emitting `"0.0"` and `"-5.0"`.
-/
theorem C10_zero_bound_bypasses_validation (f : MetricField) (other : Option ℚ) :
    f.get_range_extremes (some 0, other) =
      MetricField.get_range_extremes
        { slug := f.slug, min_value := none, max_value := f.max_value }
        (some 0, other) ∧
    isInvalidBound (f.get_range_extremes (some 0, other)) = false ∧
    f.get_range_extremes (other, some 0) =
      MetricField.get_range_extremes
        { slug := f.slug, min_value := f.min_value, max_value := none }
        (other, some 0) ∧
    isInvalidBound (f.get_range_extremes (other, some 0)) = false ∧
    MetricField.get_params { slug := "m" } (.list [some 0, some (-5)]) =
      .ok [("metric", ["m"]), ("metric_gt", ["0.0"]), ("metric_lt", ["-5.0"])] := by
  have h0 : truthy (some 0) = false := rfl
  refine ⟨?_, ?_, ?_, ?_, rfl⟩ <;>
      simp only [MetricField.get_range_extremes, h0, Bool.false_and, Bool.and_false,
        if_false, Bool.false_eq_true] <;>
    first
      | rfl
      | (split <;> rfl)

/-! ## PlayerField (`field.py`, `PlayerField`) and `lookup.py`, `lookup_id`

The Chadwick Bureau lookup table is external data; it is abstracted as a
predicate `tbl : String → Bool` telling whether an identifier matches a row
of the table (`key_mlbam`/`key_fangraphs`/`key_bbref`/`key_retro`). -/

/-- Insertion into an ascending list, used to model Python `sorted` (both
are stable ascending sorts, and on strings of which none are equal to each
other in distinct positions the result is the unique sorted permutation). -/
def insertSorted (a : String) : List String → List String
  | [] => [a]
  | b :: rest => if b < a then b :: insertSorted a rest else a :: b :: rest

/-- Python `sorted` on a list of strings (ascending, by code point). -/
def pySorted : List String → List String
  | [] => []
  | a :: rest => insertSorted a (pySorted rest)

/-- The argument passed to `PlayerField.get_params`. -/
inductive PlayerInput where
  | noneI
  | scalar (s : String)
  | list (vs : List String)

namespace PlayerField

/-- `lookup.lookup_id(v).is_empty()`: `lookup_id` filters the table down to
the rows matching `v` and raises `IdNotFoundError` when no row matches —
so when it returns at all, the returned frame is nonempty. -/
def lookup_id_is_empty (tbl : String → Bool) (v : String) : Except PError Bool :=
  if tbl v then .ok false else .error (.idNotFoundError v)

/-- The list comprehension in `PlayerField._validate_values`:
`[str(value) for value in values if not lookup_id(str(value)).is_empty()]`,
evaluated left to right, the first `IdNotFoundError` aborting it. -/
def filterKnown (tbl : String → Bool) : List String → Except PError (List String)
  | [] => .ok []
  | v :: rest => do
    let e ← lookup_id_is_empty tbl v
    let r ← filterKnown tbl rest
    if !e then .ok (v :: r) else .ok r

/-- Normalisation at the top of `PlayerField._validate_values`: a falsy
argument becomes `[""]`, a scalar becomes a one-element list (`.scalar ""`
is falsy in Python and also yields `[""]`). -/
def inputValues : PlayerInput → List String
  | .noneI => [""]
  | .scalar s => [s]
  | .list vs => if vs = [] then [""] else vs

/-- `PlayerField._validate_values`. -/
def validate_values (tbl : String → Bool) (input : PlayerInput) :
    Except PError (List String) :=
  filterKnown tbl (inputValues input)

/-- `sorted(values)` followed by the truthiness filter of
`PlayerField.get_params` (`[str(value) for value in sorted(values) if value]`). -/
def sortKeep (values : List String) : List String :=
  (pySorted values).filter (fun v => v ≠ "")

/-- `PlayerField.get_params`. -/
def get_params (tbl : String → Bool) (slug : String) (input : PlayerInput) :
    Except PError Params :=
  (validate_values tbl input).map fun values => [(slug, sortKeep values)]

theorem filterKnown_all_true (tbl : String → Bool) (l : List String)
    (h : ∀ v ∈ l, tbl v = true) : filterKnown tbl l = .ok l := by
  induction l with
  | nil => rfl
  | cons v rest ih =>
    have hv := h v (List.mem_cons_self v rest)
    simp only [filterKnown, lookup_id_is_empty, hv, if_true,
      ih fun w hw => h w (List.mem_cons_of_mem v hw)]
    rfl

theorem filterKnown_err (tbl : String → Bool) (l : List String)
    (h : ∃ v ∈ l, tbl v = false) :
    ∃ w, filterKnown tbl l = .error (.idNotFoundError w) ∧ tbl w = false := by
  induction l with
  | nil => simp at h
  | cons v rest ih =>
    by_cases hv : tbl v = true
    · obtain ⟨w, hw, hwf⟩ := h
      rcases List.mem_cons.mp hw with rfl | hw'
      · exact absurd hv (by simp [hwf])
      · obtain ⟨w', hw', hwf'⟩ := ih ⟨w, hw', hwf⟩
        refine ⟨w', ?_, hwf'⟩
        simp only [filterKnown, lookup_id_is_empty, hv, if_true, hw']
        rfl
    · refine ⟨v, ?_, Bool.eq_false_iff.mpr hv⟩
      simp only [filterKnown, lookup_id_is_empty, hv, if_false, Bool.false_eq_true]
      rfl

end PlayerField

/--
C5 (amended): `PlayerField.get_params` does NOT silently discard unknown
identifiers: an identifier that fails the identity lookup makes
`lookup_id` raise `IdNotFoundError`, which propagates out of `get_params`.
When every supplied identifier exists, the result is the sorted list of
those identifiers (with empty strings dropped).
-/
theorem C5_unknown_id_raises (tbl : String → Bool) (slug : String)
    (input : PlayerInput) :
    ((∀ v ∈ PlayerField.inputValues input, tbl v = true) →
      PlayerField.get_params tbl slug input =
        .ok [(slug, PlayerField.sortKeep (PlayerField.inputValues input))]) ∧
    ((∃ v ∈ PlayerField.inputValues input, tbl v = false) →
      isOkB (PlayerField.get_params tbl slug input) = false) := by
  constructor
  · intro h
    simp [PlayerField.get_params, PlayerField.validate_values,
      PlayerField.filterKnown_all_true tbl _ h, Except.map]
  · intro h
    obtain ⟨w, hw, -⟩ := PlayerField.filterKnown_err tbl _ h
    simp [PlayerField.get_params, PlayerField.validate_values, hw, Except.map, isOkB]

/-- Witness for C5 at a concrete input: both identifiers exist, so encoding
returns them sorted. -/
theorem C5_unknown_id_raises_witness :
    PlayerField.get_params (fun _ => true) "pitchers" (.list ["661563", "543243"]) =
      .ok [("pitchers", ["543243", "661563"])] :=
  ((C5_unknown_id_raises (fun _ => true) "pitchers"
    (.list ["661563", "543243"])).1 (fun _ _ => rfl)).trans (by
      simp [PlayerField.sortKeep, PlayerField.inputValues, pySorted, insertSorted]
      decide)

/--
C5 counterexample: with a lookup table containing `"123456"` but not
`"bogus"`, `get_params(["123456", "bogus"])` raises
`IdNotFoundError("bogus")` instead of returning `["123456"]`.
-/
theorem C5_counterexample :
    (fun s => s == "123456") "123456" = true ∧
    (fun s => s == "123456") "bogus" = false ∧
    PlayerField.get_params (fun s => s == "123456") "pitchers"
        (.list ["123456", "bogus"]) = .error (.idNotFoundError "bogus") ∧
    ∀ ps : Params,
      PlayerField.get_params (fun s => s == "123456") "pitchers"
        (.list ["123456", "bogus"]) ≠ .ok ps := by
  refine ⟨rfl, rfl, rfl, fun ps h => ?_⟩
  rw [show PlayerField.get_params (fun s => s == "123456") "pitchers"
        (.list ["123456", "bogus"]) = .error (.idNotFoundError "bogus") from rfl] at h
  exact Except.noConfusion h

/-! ## Calendar dates

Python `datetime.date` objects are modelled by their day number in the
proleptic Gregorian calendar (days since 0000-03-01, Hinnant's
`days_from_civil` specialised to the nonnegative years used here), so that
comparison and `timedelta` arithmetic on dates become `Nat` comparison and
arithmetic. -/

/-- Day number of the Gregorian date `y-m-d` (days since 0000-03-01). -/
def dayNum (y m d : Nat) : Nat :=
  let y' := if m ≤ 2 then y - 1 else y
  let era := y' / 400
  let yoe := y' % 400
  let mp := (m + 9) % 12
  let doy := (153 * mp + 2) / 5 + (d - 1)
  let doe := yoe * 365 + yoe / 4 - yoe / 100 + doy
  era * 146097 + doe

/-- The year of a day number (inverse of `dayNum` on the year component;
Hinnant's `civil_from_days`). -/
def yearOf (n : Nat) : Nat :=
  let era := n / 146097
  let doe := n % 146097
  let yoe := (doe - doe / 1460 + doe / 36524 - doe / 146097) / 365
  let doy := doe - (365 * yoe + yoe / 4 - yoe / 100)
  let mp := (5 * doy + 2) / 153
  let y := yoe + era * 400
  if 10 ≤ mp then y + 1 else y

/-- A `datetime.date`. -/
structure DateYMD where
  y : Nat
  m : Nat
  d : Nat
  deriving Repr, DecidableEq

/-- The day number of a date. -/
def DateYMD.num (dt : DateYMD) : Nat := dayNum dt.y dt.m dt.d

example : dayNum 2021 11 3 - dayNum 2021 11 1 = 2 := by decide
example : dayNum 2022 1 1 - dayNum 2021 12 31 = 1 := by decide
example : dayNum 2020 3 1 - dayNum 2020 2 28 = 2 := by decide
example : dayNum 2021 3 1 - dayNum 2021 2 28 = 1 := by decide
example : yearOf (dayNum 2021 12 31) = 2021 := by decide
example : yearOf (dayNum 2022 1 1) = 2022 := by decide

/-! ## DateField (`field.py`, `DateField`)

The field's configured `min_value`/`max_value` are stored in the source as
ISO strings and parsed on use; they are modelled as the dates those strings
denote.  The wire value of the field is the ISO rendering of a date (or `""`
for `None`); `strftime`/`strptime` with the `%Y-%m-%d` format are mutually
inverse on valid dates, so the wire value is modelled as the
`Option DateYMD` itself. -/

structure DateField where
  slug : String
  min_value : Option DateYMD := none
  max_value : Option DateYMD := none

/-- A parameter mapping whose values are date wire values. -/
abbrev DateParams := List (String × List (Option DateYMD))

/-- The argument passed to `DateField.get_params`: `None`, an empty string
(falsy, treated like `None`), a date (or a string/int that `strptime`
parses to it; a `float` would raise `FieldTypeError` and is excluded by the
input type), or a non-string sequence of such scalars. -/
inductive DateInput where
  | noneI
  | emptyStr
  | date (v : DateYMD)
  | many (l : List (Option DateYMD))

namespace DateField

/-- `DateField._validate_date`: compare a validated value against the
configured bounds (a configured bound is a nonempty string, hence truthy;
a date value is always truthy; `None` skips the checks). -/
def validate_date (f : DateField) (v : Option DateYMD) :
    Except PError (Option DateYMD) :=
  match f.min_value, v with
  | some mn, some dt =>
    if dt.num < mn.num then .error (.lessThanLowerBoundError dt.num mn.num)
    else match f.max_value with
      | some mx => if mx.num < dt.num then .error (.moreThanUpperBoundError dt.num mx.num)
                   else .ok v
      | none => .ok v
  | _, _ =>
    match f.max_value, v with
    | some mx, some dt =>
      if mx.num < dt.num then .error (.moreThanUpperBoundError dt.num mx.num)
      else .ok v
    | _, _ => .ok v

/-- `DateField._validate_values`: a non-string sequence of more than one
item raises `TooManyValuesError(max_values=1)`; a one-item sequence is
unwrapped; an empty sequence hits `values[0]` and raises `IndexError` in
the source; a falsy scalar becomes `None`. -/
def validate_values (f : DateField) (input : DateInput) :
    Except PError (Option DateYMD) :=
  match input with
  | .noneI => f.validate_date none
  | .emptyStr => f.validate_date none
  | .date v => f.validate_date (some v)
  | .many [] => .error .indexError
  | .many [v] => f.validate_date v
  | .many _ => .error (.tooManyValuesError 1)

/-- `DateField.get_params`. -/
def get_params (f : DateField) (input : DateInput) : Except PError DateParams :=
  (f.validate_values input).map fun v => [(f.slug, [v])]

/-- `DateField.get_values`: `params.get(self.slug, [""])[0]`, parsed when
nonempty. -/
def get_values (f : DateField) (ps : DateParams) : Option DateYMD :=
  (((ps.find? (fun p => p.1 == f.slug)).map (·.2)).getD [none]).headD none

end DateField

/-- Whether an encoding attempt raised `TooManyValuesError`. -/
def isTooMany {α : Type} : Except PError α → Bool
  | .error (.tooManyValuesError _) => true
  | _ => false

theorem isTooMany_error {α β : Type} (e : PError) :
    isTooMany (Except.error e : Except PError α) =
      isTooMany (Except.error e : Except PError β) := by
  cases e <;> rfl

/--
C7 (amended): a DateRange field accepts at most ONE value, not two:
`TooManyValuesError` is raised exactly when a non-string sequence with more
than one element is supplied (the error's `max_values` is 1), so encoding a
2-element list of dates fails on arity.
-/
theorem C7_date_field_arity (f : DateField) (input : DateInput) :
    (isTooMany (f.validate_values input) = true ↔
      ∃ l, input = .many l ∧ 2 ≤ l.length) ∧
    (isTooMany (f.get_params input) = true ↔
      ∃ l, input = .many l ∧ 2 ≤ l.length) := by
  have key : ∀ v, isTooMany (f.validate_date v) = false := by
    intro v
    rcases hmn : f.min_value with - | mn <;> rcases hv : v with - | dt <;>
      rcases hmx : f.max_value with - | mx <;>
        simp only [DateField.validate_date, hmn, hmx] <;>
          first
            | rfl
            | (split <;> first | rfl | (split <;> rfl))
  have main : isTooMany (f.validate_values input) = true ↔
      ∃ l, input = .many l ∧ 2 ≤ l.length := by
    cases input with
    | noneI => simp [DateField.validate_values, key]
    | emptyStr => simp [DateField.validate_values, key]
    | date v => simp [DateField.validate_values, key]
    | many l =>
      match l with
      | [] => simp [DateField.validate_values, isTooMany]
      | [v] => simp [DateField.validate_values, key]
      | a :: b :: rest =>
        simp only [DateField.validate_values, isTooMany, true_iff]
        exact ⟨a :: b :: rest, rfl, by simp⟩
  refine ⟨main, ?_⟩
  rw [← main]
  unfold DateField.get_params
  cases f.validate_values input with
  | ok v => simp [Except.map, isTooMany]
  | error e =>
    show isTooMany (Except.error e : Except PError DateParams) = true ↔ _
    rw [isTooMany_error e]

/--
C7 counterexample: encoding a 2-element list of dates on a DateRange field
raises `TooManyValuesError` with `max_values = 1` — the field does not
accept two values.
-/
theorem C7_counterexample :
    DateField.get_params { slug := "game_date_gt" }
        (.many [some ⟨2021, 4, 1⟩, some ⟨2021, 4, 10⟩]) =
      .error (.tooManyValuesError 1) := rfl

/-! ## Request splitting (`statcast/query.py`, `SearchQuery._get_date_pairs`)

The method reads the resolved `start_date`/`end_date` values and the
query's running `frequency`; it is embedded as a function of those three
inputs (dates as day numbers, the frequency as a rational).  The emitted
date pairs are ISO strings in the source; as the rendering is a bijection
on dates they are modelled as day-number pairs. -/

def GAMES_PER_DAY : Nat := 15

def GAMES_PER_REGULAR_SEASON : Nat := 2430

def GAMES_PER_POSTSEASON : Nat := 53

def GAMES_PER_YEAR : Nat := GAMES_PER_REGULAR_SEASON + GAMES_PER_POSTSEASON

def PITCHES_PER_GAME : Nat := 325

def PITCHES_PER_YEAR : Nat := GAMES_PER_YEAR * PITCHES_PER_GAME

def MAX_ROWS_PER_REQUEST : Nat := 15000

/-- `int(MAX_ROWS_PER_REQUEST / (PITCHES_PER_GAME * GAMES_PER_DAY))`:
truncation of a positive quotient is floor division. -/
def DAYS_PER_REQUEST : Nat := MAX_ROWS_PER_REQUEST / (PITCHES_PER_GAME * GAMES_PER_DAY)

/-- `SEASON_DATES`: start of every regular season and end of the postseason,
as day numbers, for the supported years (a missing year raises `KeyError`
in the source). -/
def SEASON_DATES : Nat → Option (Nat × Nat)
  | 2008 => some (dayNum 2008 3 25, dayNum 2008 10 27)
  | 2009 => some (dayNum 2009 4 5, dayNum 2009 11 4)
  | 2010 => some (dayNum 2010 4 4, dayNum 2010 11 1)
  | 2011 => some (dayNum 2011 3 31, dayNum 2011 10 28)
  | 2012 => some (dayNum 2012 3 28, dayNum 2012 10 28)
  | 2013 => some (dayNum 2013 3 31, dayNum 2013 10 30)
  | 2014 => some (dayNum 2014 3 22, dayNum 2014 10 29)
  | 2015 => some (dayNum 2015 4 5, dayNum 2015 11 1)
  | 2016 => some (dayNum 2016 4 3, dayNum 2016 11 2)
  | 2017 => some (dayNum 2017 4 2, dayNum 2017 11 1)
  | 2018 => some (dayNum 2018 3 29, dayNum 2018 10 28)
  | 2019 => some (dayNum 2019 3 20, dayNum 2019 10 30)
  | 2020 => some (dayNum 2020 7 23, dayNum 2020 10 27)
  | 2021 => some (dayNum 2021 4 1, dayNum 2021 11 2)
  | 2022 => some (dayNum 2022 4 7, dayNum 2022 11 5)
  | _ => none

/-- `est_rows = PITCHES_PER_YEAR * self.frequency` — note: the resolved
start/end dates play no part in it. -/
def est_rows (fq : ℚ) : ℚ := (PITCHES_PER_YEAR : ℚ) * fq

/-- `int((DAYS_PER_REQUEST - 1) / self.frequency)`: the day-count step of
the inner `while` loop (for a positive frequency the quotient is positive,
so `int()` truncation is the floor). -/
def splitDelta (fq : ℚ) : Nat := (⌊((DAYS_PER_REQUEST : ℚ) - 1) / fq⌋).toNat

/-- The inner `while` loop of `_get_date_pairs`, with explicit fuel so that
it is structurally recursive (the wrapper `windowWalk` supplies enough fuel,
and `windowWalk_eq` recovers the loop's defining equation).  `sE` is the
season's end date, `e` the query's end date, `rs` the running
`range_start`. -/
def windowWalkGo (delta sE e : Nat) : Nat → Nat → List (Nat × Nat)
  | 0, _ => []
  | fuel + 1, rs =>
    if rs ≤ min sE e then
      (rs, min e (rs + delta)) :: windowWalkGo delta sE e fuel (min e (rs + delta) + 1)
    else []

/-- The inner `while` loop of `_get_date_pairs`:
`while range_start <= min(season_end, end): range_end = min(end,
range_start + delta); emit; range_start = range_end + 1`. -/
def windowWalk (delta sE e rs : Nat) : List (Nat × Nat) :=
  windowWalkGo delta sE e (min sE e + 1 - rs) rs

theorem windowWalkGo_congr (delta sE e : Nat) :
    ∀ f1 f2 rs, min sE e + 1 - rs ≤ f1 → min sE e + 1 - rs ≤ f2 →
      windowWalkGo delta sE e f1 rs = windowWalkGo delta sE e f2 rs := by
  intro f1
  induction f1 with
  | zero =>
    intro f2 rs h1 h2
    have hrs : ¬ rs ≤ min sE e := by omega
    cases f2 with
    | zero => rfl
    | succ f2 => simp [windowWalkGo, hrs]
  | succ f1 ih =>
    intro f2 rs h1 h2
    cases f2 with
    | zero =>
      have hrs : ¬ rs ≤ min sE e := by omega
      simp [windowWalkGo, hrs]
    | succ f2 =>
      by_cases hrs : rs ≤ min sE e
      · have hre : rs ≤ min e (rs + delta) := by omega
        simp only [windowWalkGo, hrs, if_true]
        rw [ih f2 (min e (rs + delta) + 1) (by omega) (by omega)]
      · simp [windowWalkGo, hrs]

/-- The defining equation of the source's `while` loop. -/
theorem windowWalk_eq (delta sE e rs : Nat) :
    windowWalk delta sE e rs =
      if rs ≤ min sE e then
        (rs, min e (rs + delta)) :: windowWalk delta sE e (min e (rs + delta) + 1)
      else [] := by
  unfold windowWalk
  by_cases hrs : rs ≤ min sE e
  · have h1 : min sE e + 1 - rs = (min sE e - rs) + 1 := by omega
    rw [h1]
    simp only [windowWalkGo, hrs, if_true]
    rw [windowWalkGo_congr delta sE e (min sE e - rs) (min sE e + 1 - (min e (rs + delta) + 1))
      (min e (rs + delta) + 1) (by omega) (by omega)]
  · cases hf : min sE e + 1 - rs with
    | zero => simp [windowWalkGo, hrs]
    | succ f => simp [windowWalkGo, hrs]

/-- The loop of `_get_date_pairs` for one season: walk the windows and
apply the rewrite `f"{season}-01-01" if range_start == season_start`. -/
def seasonPairs (fq : ℚ) (year s e ss sE : Nat) : List (Nat × Nat) :=
  (windowWalk (splitDelta fq) sE e (max ss s)).map fun p =>
    (if p.1 = ss then dayNum year 1 1 else p.1, p.2)

/-- The outer `for season in range(start.year, end.year + 1)` loop of
`_get_date_pairs`: look each season up in `SEASON_DATES` (a missing season
raises `KeyError`) and concatenate the per-season date pairs. -/
def seasonsLoop (fq : ℚ) (s e : Nat) : List Nat → Except PError (List (Nat × Nat))
  | [] => .ok []
  | year :: rest =>
    match SEASON_DATES year with
    | some (ss, sE) =>
      (seasonsLoop fq s e rest).map (fun tail => seasonPairs fq year s e ss sE ++ tail)
    | none => .error .keyError

/-- `SearchQuery._get_date_pairs`, as a function of the running frequency
and the resolved start/end day numbers. -/
def get_date_pairs (fq : ℚ) (s e : Nat) : Except PError (List (Nat × Nat)) :=
  if est_rows fq < (MAX_ROWS_PER_REQUEST : ℚ) then .ok [(s, e)]
  else seasonsLoop fq s e (List.range' (yearOf s) (yearOf e + 1 - yearOf s))

/--
C3: when the estimated row count is strictly under the ceiling, the
splitter emits exactly one request whose date bounds are the literal
resolved start and end dates (no January-1st rewriting happens).
-/
theorem C3_single_request_under_ceiling (fq : ℚ) (s e : Nat)
    (h : est_rows fq < (MAX_ROWS_PER_REQUEST : ℚ)) :
    get_date_pairs fq s e = .ok [(s, e)] := by
  unfold get_date_pairs
  rw [if_pos h]

/-- Witness for C3: a frequency of 1/100 estimates 8069.75 rows, under the
15000 ceiling, so the 2021-04-01..2021-04-10 query is emitted whole. -/
theorem C3_single_request_under_ceiling_witness :
    get_date_pairs (1/100) (dayNum 2021 4 1) (dayNum 2021 4 10) =
      .ok [(dayNum 2021 4 1, dayNum 2021 4 10)] :=
  C3_single_request_under_ceiling (1/100) (dayNum 2021 4 1) (dayNum 2021 4 10)
    (by norm_num [est_rows, PITCHES_PER_YEAR, GAMES_PER_YEAR, GAMES_PER_REGULAR_SEASON,
      GAMES_PER_POSTSEASON, PITCHES_PER_GAME, MAX_ROWS_PER_REQUEST])

/-- Modelled from the spec: "estimated_rows = average_rows_per_day_at_full_
frequency * (end - start in days) * running_frequency", with the per-day
baseline "average events per game × average games per day"
(`PITCHES_PER_GAME * GAMES_PER_DAY`). -/
def specEstimatedRows (s e : Nat) (fq : ℚ) : ℚ :=
  ((PITCHES_PER_GAME * GAMES_PER_DAY : Nat) : ℚ) * ((e - s : Nat) : ℚ) * fq

/--
C1 (amended): the estimate the splitter uses to decide whether to split is
`PITCHES_PER_YEAR * running_frequency` (= `806975 * f`), a full-year volume
constant that does NOT grow with the length of the requested date range;
whenever it is under the ceiling the full range is emitted as one request.
-/
theorem C1_estimate_ignores_range_length (fq : ℚ) (s e : Nat) :
    est_rows fq = (806975 : ℚ) * fq ∧
    (est_rows fq < (MAX_ROWS_PER_REQUEST : ℚ) → get_date_pairs fq s e = .ok [(s, e)]) := by
  constructor
  · norm_num [est_rows, PITCHES_PER_YEAR, GAMES_PER_YEAR, GAMES_PER_REGULAR_SEASON,
      GAMES_PER_POSTSEASON, PITCHES_PER_GAME]
  · intro h
    unfold get_date_pairs
    rw [if_pos h]

/-- Witness for C1 at a concrete frequency and date range. -/
theorem C1_estimate_ignores_range_length_witness :
    est_rows (1/100) = (806975 : ℚ) * (1/100) ∧
    get_date_pairs (1/100) (dayNum 2021 4 1) (dayNum 2021 4 10) =
      .ok [(dayNum 2021 4 1, dayNum 2021 4 10)] :=
  ⟨(C1_estimate_ignores_range_length (1/100) (dayNum 2021 4 1) (dayNum 2021 4 10)).1,
   (C1_estimate_ignores_range_length (1/100) (dayNum 2021 4 1) (dayNum 2021 4 10)).2
     (by norm_num [est_rows, PITCHES_PER_YEAR, GAMES_PER_YEAR, GAMES_PER_REGULAR_SEASON,
       GAMES_PER_POSTSEASON, PITCHES_PER_GAME, MAX_ROWS_PER_REQUEST])⟩

/--
C1 counterexample: for the 3-day range 2021-04-02..2021-04-05 at frequency
1 the spec's formula gives 4875 * 3 * 1 = 14625 rows — under the ceiling,
so by the claim the query would not be split — but the estimate the code
uses is 806975, so the range IS split (into two requests); the two
estimates differ.
-/
theorem C1_counterexample :
    est_rows 1 ≠ specEstimatedRows (dayNum 2021 4 2) (dayNum 2021 4 5) 1 ∧
    specEstimatedRows (dayNum 2021 4 2) (dayNum 2021 4 5) 1 <
      (MAX_ROWS_PER_REQUEST : ℚ) ∧
    get_date_pairs 1 (dayNum 2021 4 2) (dayNum 2021 4 5) =
      .ok [(dayNum 2021 4 2, dayNum 2021 4 4), (dayNum 2021 4 5, dayNum 2021 4 5)] := by
  have hbig : ¬ est_rows 1 < (MAX_ROWS_PER_REQUEST : ℚ) := by
    norm_num [est_rows, PITCHES_PER_YEAR, GAMES_PER_YEAR, GAMES_PER_REGULAR_SEASON,
      GAMES_PER_POSTSEASON, PITCHES_PER_GAME, MAX_ROWS_PER_REQUEST]
  have hd : splitDelta 1 = 2 := by
    norm_num [splitDelta, DAYS_PER_REQUEST, MAX_ROWS_PER_REQUEST, PITCHES_PER_GAME,
      GAMES_PER_DAY]
    rfl
  have step1 : get_date_pairs 1 (dayNum 2021 4 2) (dayNum 2021 4 5) =
      .ok (seasonPairs 1 2021 (dayNum 2021 4 2) (dayNum 2021 4 5)
        (dayNum 2021 4 1) (dayNum 2021 11 2) ++ []) := by
    unfold get_date_pairs
    rw [if_neg hbig]
    rfl
  have step2 : seasonPairs 1 2021 (dayNum 2021 4 2) (dayNum 2021 4 5)
      (dayNum 2021 4 1) (dayNum 2021 11 2) =
      [(dayNum 2021 4 2, dayNum 2021 4 4), (dayNum 2021 4 5, dayNum 2021 4 5)] := by
    unfold seasonPairs
    rw [hd]
    rfl
  refine ⟨?_, ?_, by rw [step1, step2]; rfl⟩
  · norm_num [est_rows, specEstimatedRows, PITCHES_PER_YEAR, GAMES_PER_YEAR,
      GAMES_PER_REGULAR_SEASON, GAMES_PER_POSTSEASON, PITCHES_PER_GAME, GAMES_PER_DAY,
      dayNum]
  · norm_num [specEstimatedRows, PITCHES_PER_GAME, GAMES_PER_DAY, MAX_ROWS_PER_REQUEST,
      dayNum]

/-! ## Season table facts and `yearOf` characterisation (for C2) -/

/-- Season start day of a supported year (`0` outside the table). -/
def seasonStartD (y : Nat) : Nat := ((SEASON_DATES y).getD (0, 0)).1

/-- Season end day of a supported year (`0` outside the table). -/
def seasonEndD (y : Nat) : Nat := ((SEASON_DATES y).getD (0, 0)).2

/-- A day lies within some season of the table. -/
def inSeasonB (d : Nat) : Bool :=
  (List.range' 2008 15).any fun y =>
    decide (seasonStartD y ≤ d) && decide (d ≤ seasonEndD y)

theorem seasonDates_eq_k : ∀ k, k < 15 →
    SEASON_DATES (2008 + k) = some (seasonStartD (2008 + k), seasonEndD (2008 + k)) := by
  decide

theorem season_in_year_k : ∀ k, k < 15 →
    dayNum (2008 + k) 1 1 ≤ seasonStartD (2008 + k) ∧
    seasonStartD (2008 + k) ≤ seasonEndD (2008 + k) ∧
    seasonEndD (2008 + k) < dayNum (2008 + k + 1) 1 1 := by
  decide

theorem season_gap_k : ∀ k, k < 14 →
    seasonEndD (2008 + k) + 108 ≤ seasonStartD (2008 + k + 1) := by
  decide

theorem jan1_mono_k : ∀ a, a < 16 → ∀ b, b < 16 → a ≤ b →
    dayNum (2008 + a) 1 1 ≤ dayNum (2008 + b) 1 1 := by
  decide

theorem seasonDates_eq (y : Nat) (h1 : 2008 ≤ y) (h2 : y ≤ 2022) :
    SEASON_DATES y = some (seasonStartD y, seasonEndD y) := by
  have h := seasonDates_eq_k (y - 2008) (by omega)
  rwa [show 2008 + (y - 2008) = y by omega] at h

theorem season_in_year (y : Nat) (h1 : 2008 ≤ y) (h2 : y ≤ 2022) :
    dayNum y 1 1 ≤ seasonStartD y ∧ seasonStartD y ≤ seasonEndD y ∧
    seasonEndD y < dayNum (y + 1) 1 1 := by
  have h := season_in_year_k (y - 2008) (by omega)
  rwa [show 2008 + (y - 2008) = y by omega] at h

theorem season_gap (y : Nat) (h1 : 2008 ≤ y) (h2 : y ≤ 2021) :
    seasonEndD y + 108 ≤ seasonStartD (y + 1) := by
  have h := season_gap_k (y - 2008) (by omega)
  rwa [show 2008 + (y - 2008) = y by omega] at h

theorem jan1_mono (a b : Nat) (h1 : 2008 ≤ a) (hab : a ≤ b) (h2 : b ≤ 2023) :
    dayNum a 1 1 ≤ dayNum b 1 1 := by
  have h := jan1_mono_k (a - 2008) (by omega) (b - 2008) (by omega) (by omega)
  rwa [show 2008 + (a - 2008) = a by omega, show 2008 + (b - 2008) = b by omega] at h

set_option maxRecDepth 40000 in
theorem yearOf_add : ∀ k, k < 15 → ∀ j,
    j < dayNum (2008 + k + 1) 1 1 - dayNum (2008 + k) 1 1 →
    yearOf (dayNum (2008 + k) 1 1 + j) = 2008 + k := by
  decide

/-- For a day between 2008-01-01 and 2022-12-31, `yearOf` returns its
calendar year: the unique supported year whose January 1st brackets it. -/
theorem yearOf_spec (n : Nat) (h1 : dayNum 2008 1 1 ≤ n) (h2 : n < dayNum 2023 1 1) :
    2008 ≤ yearOf n ∧ yearOf n ≤ 2022 ∧
    dayNum (yearOf n) 1 1 ≤ n ∧ n < dayNum (yearOf n + 1) 1 1 := by
  by_cases b2009 : n < dayNum 2009 1 1
  · have h := yearOf_add 0 (by norm_num)
    norm_num at h
    have hlo : dayNum 2008 1 1 ≤ n := h1
    have h' := h (n - dayNum 2008 1 1) (by omega)
    rw [Nat.add_sub_cancel' hlo] at h'
    refine ⟨by rw [h']; try norm_num, by rw [h']; try norm_num, by rw [h']; exact hlo, ?_⟩
    rw [h']
    simpa using b2009
  by_cases b2010 : n < dayNum 2010 1 1
  · have h := yearOf_add 1 (by norm_num)
    norm_num at h
    have hlo : dayNum 2009 1 1 ≤ n := (Nat.not_lt.mp b2009)
    have h' := h (n - dayNum 2009 1 1) (by omega)
    rw [Nat.add_sub_cancel' hlo] at h'
    refine ⟨by rw [h']; try norm_num, by rw [h']; try norm_num, by rw [h']; exact hlo, ?_⟩
    rw [h']
    simpa using b2010
  by_cases b2011 : n < dayNum 2011 1 1
  · have h := yearOf_add 2 (by norm_num)
    norm_num at h
    have hlo : dayNum 2010 1 1 ≤ n := (Nat.not_lt.mp b2010)
    have h' := h (n - dayNum 2010 1 1) (by omega)
    rw [Nat.add_sub_cancel' hlo] at h'
    refine ⟨by rw [h']; try norm_num, by rw [h']; try norm_num, by rw [h']; exact hlo, ?_⟩
    rw [h']
    simpa using b2011
  by_cases b2012 : n < dayNum 2012 1 1
  · have h := yearOf_add 3 (by norm_num)
    norm_num at h
    have hlo : dayNum 2011 1 1 ≤ n := (Nat.not_lt.mp b2011)
    have h' := h (n - dayNum 2011 1 1) (by omega)
    rw [Nat.add_sub_cancel' hlo] at h'
    refine ⟨by rw [h']; try norm_num, by rw [h']; try norm_num, by rw [h']; exact hlo, ?_⟩
    rw [h']
    simpa using b2012
  by_cases b2013 : n < dayNum 2013 1 1
  · have h := yearOf_add 4 (by norm_num)
    norm_num at h
    have hlo : dayNum 2012 1 1 ≤ n := (Nat.not_lt.mp b2012)
    have h' := h (n - dayNum 2012 1 1) (by omega)
    rw [Nat.add_sub_cancel' hlo] at h'
    refine ⟨by rw [h']; try norm_num, by rw [h']; try norm_num, by rw [h']; exact hlo, ?_⟩
    rw [h']
    simpa using b2013
  by_cases b2014 : n < dayNum 2014 1 1
  · have h := yearOf_add 5 (by norm_num)
    norm_num at h
    have hlo : dayNum 2013 1 1 ≤ n := (Nat.not_lt.mp b2013)
    have h' := h (n - dayNum 2013 1 1) (by omega)
    rw [Nat.add_sub_cancel' hlo] at h'
    refine ⟨by rw [h']; try norm_num, by rw [h']; try norm_num, by rw [h']; exact hlo, ?_⟩
    rw [h']
    simpa using b2014
  by_cases b2015 : n < dayNum 2015 1 1
  · have h := yearOf_add 6 (by norm_num)
    norm_num at h
    have hlo : dayNum 2014 1 1 ≤ n := (Nat.not_lt.mp b2014)
    have h' := h (n - dayNum 2014 1 1) (by omega)
    rw [Nat.add_sub_cancel' hlo] at h'
    refine ⟨by rw [h']; try norm_num, by rw [h']; try norm_num, by rw [h']; exact hlo, ?_⟩
    rw [h']
    simpa using b2015
  by_cases b2016 : n < dayNum 2016 1 1
  · have h := yearOf_add 7 (by norm_num)
    norm_num at h
    have hlo : dayNum 2015 1 1 ≤ n := (Nat.not_lt.mp b2015)
    have h' := h (n - dayNum 2015 1 1) (by omega)
    rw [Nat.add_sub_cancel' hlo] at h'
    refine ⟨by rw [h']; try norm_num, by rw [h']; try norm_num, by rw [h']; exact hlo, ?_⟩
    rw [h']
    simpa using b2016
  by_cases b2017 : n < dayNum 2017 1 1
  · have h := yearOf_add 8 (by norm_num)
    norm_num at h
    have hlo : dayNum 2016 1 1 ≤ n := (Nat.not_lt.mp b2016)
    have h' := h (n - dayNum 2016 1 1) (by omega)
    rw [Nat.add_sub_cancel' hlo] at h'
    refine ⟨by rw [h']; try norm_num, by rw [h']; try norm_num, by rw [h']; exact hlo, ?_⟩
    rw [h']
    simpa using b2017
  by_cases b2018 : n < dayNum 2018 1 1
  · have h := yearOf_add 9 (by norm_num)
    norm_num at h
    have hlo : dayNum 2017 1 1 ≤ n := (Nat.not_lt.mp b2017)
    have h' := h (n - dayNum 2017 1 1) (by omega)
    rw [Nat.add_sub_cancel' hlo] at h'
    refine ⟨by rw [h']; try norm_num, by rw [h']; try norm_num, by rw [h']; exact hlo, ?_⟩
    rw [h']
    simpa using b2018
  by_cases b2019 : n < dayNum 2019 1 1
  · have h := yearOf_add 10 (by norm_num)
    norm_num at h
    have hlo : dayNum 2018 1 1 ≤ n := (Nat.not_lt.mp b2018)
    have h' := h (n - dayNum 2018 1 1) (by omega)
    rw [Nat.add_sub_cancel' hlo] at h'
    refine ⟨by rw [h']; try norm_num, by rw [h']; try norm_num, by rw [h']; exact hlo, ?_⟩
    rw [h']
    simpa using b2019
  by_cases b2020 : n < dayNum 2020 1 1
  · have h := yearOf_add 11 (by norm_num)
    norm_num at h
    have hlo : dayNum 2019 1 1 ≤ n := (Nat.not_lt.mp b2019)
    have h' := h (n - dayNum 2019 1 1) (by omega)
    rw [Nat.add_sub_cancel' hlo] at h'
    refine ⟨by rw [h']; try norm_num, by rw [h']; try norm_num, by rw [h']; exact hlo, ?_⟩
    rw [h']
    simpa using b2020
  by_cases b2021 : n < dayNum 2021 1 1
  · have h := yearOf_add 12 (by norm_num)
    norm_num at h
    have hlo : dayNum 2020 1 1 ≤ n := (Nat.not_lt.mp b2020)
    have h' := h (n - dayNum 2020 1 1) (by omega)
    rw [Nat.add_sub_cancel' hlo] at h'
    refine ⟨by rw [h']; try norm_num, by rw [h']; try norm_num, by rw [h']; exact hlo, ?_⟩
    rw [h']
    simpa using b2021
  by_cases b2022 : n < dayNum 2022 1 1
  · have h := yearOf_add 13 (by norm_num)
    norm_num at h
    have hlo : dayNum 2021 1 1 ≤ n := (Nat.not_lt.mp b2021)
    have h' := h (n - dayNum 2021 1 1) (by omega)
    rw [Nat.add_sub_cancel' hlo] at h'
    refine ⟨by rw [h']; try norm_num, by rw [h']; try norm_num, by rw [h']; exact hlo, ?_⟩
    rw [h']
    simpa using b2022
  have h := yearOf_add 14 (by norm_num)
  norm_num at h
  have hlo : dayNum 2022 1 1 ≤ n := (Nat.not_lt.mp b2022)
  have h' := h (n - dayNum 2022 1 1) (by omega)
  rw [Nat.add_sub_cancel' hlo] at h'
  refine ⟨by rw [h']; try norm_num, by rw [h']; try norm_num, by rw [h']; exact hlo, ?_⟩
  rw [h']
  simpa using h2


/-! ## Window-walk invariants (for C2) -/

theorem windowWalk_mem (delta sE e : Nat) :
    ∀ n rs, min sE e + 1 - rs ≤ n → ∀ p ∈ windowWalk delta sE e rs,
      rs ≤ p.1 ∧ p.1 ≤ min sE e ∧ p.2 = min e (p.1 + delta) := by
  intro n
  induction n with
  | zero =>
    intro rs h p hp
    rw [windowWalk_eq, if_neg (by omega)] at hp
    simp at hp
  | succ n ih =>
    intro rs h p hp
    rw [windowWalk_eq] at hp
    by_cases hrs : rs ≤ min sE e
    · rw [if_pos hrs] at hp
      rcases List.mem_cons.mp hp with rfl | hp'
      · exact ⟨le_refl _, hrs, rfl⟩
      · have := ih (min e (rs + delta) + 1) (by omega) p hp'
        exact ⟨by omega, this.2.1, this.2.2⟩
    · rw [if_neg hrs] at hp
      simp at hp

/-- Days strictly before the running `range_start` are covered by no
window. -/
theorem windowWalk_countP_zero (delta sE e d : Nat) :
    ∀ n rs, min sE e + 1 - rs ≤ n → d < rs →
      (windowWalk delta sE e rs).countP (fun p => decide (p.1 ≤ d ∧ d ≤ p.2)) = 0 := by
  intro n
  induction n with
  | zero =>
    intro rs h hd
    rw [windowWalk_eq, if_neg (by omega)]
    rfl
  | succ n ih =>
    intro rs h hd
    rw [windowWalk_eq]
    by_cases hrs : rs ≤ min sE e
    · rw [if_pos hrs]
      rw [List.countP_cons]
      have h1 : (decide ((rs, min e (rs + delta)).1 ≤ d ∧ d ≤ (rs, min e (rs + delta)).2)) = false := by
        simp
        omega
      rw [h1]
      have h2 := ih (min e (rs + delta) + 1) (by omega) (by omega)
      simpa using h2
    · rw [if_neg hrs]
      rfl

/-- A day between the running `range_start` and `min(season_end, end)` is
covered by exactly one window. -/
theorem windowWalk_countP_one (delta sE e d : Nat) :
    ∀ n rs, min sE e + 1 - rs ≤ n → rs ≤ d → d ≤ min sE e →
      (windowWalk delta sE e rs).countP (fun p => decide (p.1 ≤ d ∧ d ≤ p.2)) = 1 := by
  intro n
  induction n with
  | zero =>
    intro rs h h1 h2
    omega
  | succ n ih =>
    intro rs h h1 h2
    have hrs : rs ≤ min sE e := le_trans h1 h2
    rw [windowWalk_eq, if_pos hrs, List.countP_cons]
    by_cases hcov : d ≤ min e (rs + delta)
    · have hhead : (decide ((rs, min e (rs + delta)).1 ≤ d ∧ d ≤ (rs, min e (rs + delta)).2)) = true := by
        simp
        omega
      rw [hhead]
      have h0 := windowWalk_countP_zero delta sE e d (min sE e + 1 - (min e (rs + delta) + 1))
        (min e (rs + delta) + 1) (le_refl _) (by omega)
      simpa using h0
    · have hhead : (decide ((rs, min e (rs + delta)).1 ≤ d ∧ d ≤ (rs, min e (rs + delta)).2)) = false := by
        simp
        omega
      rw [hhead]
      have := ih (min e (rs + delta) + 1) (by omega) (by omega) h2
      simpa using this

/-! ## The season loop (for C2) -/

theorem seasonsLoop_ok (fq : ℚ) (s e : Nat) :
    ∀ years : List Nat, (∀ y ∈ years, 2008 ≤ y ∧ y ≤ 2022) →
      seasonsLoop fq s e years =
        .ok (years.bind fun y => seasonPairs fq y s e (seasonStartD y) (seasonEndD y)) := by
  intro years
  induction years with
  | nil => intro h; rfl
  | cons y t ih =>
    intro h
    have hy := h y (List.mem_cons_self y t)
    have ht := ih fun w hw => h w (List.mem_cons_of_mem y hw)
    simp only [seasonsLoop, seasonDates_eq y hy.1 hy.2, ht]
    rfl

/-- `get_date_pairs` in the splitting branch is the concatenation of the
per-season window lists over the years of the range. -/
theorem get_date_pairs_ok_eq (fq : ℚ) (s e : Nat)
    (hbig : ¬ est_rows fq < (MAX_ROWS_PER_REQUEST : ℚ))
    (hyears : ∀ y ∈ List.range' (yearOf s) (yearOf e + 1 - yearOf s), 2008 ≤ y ∧ y ≤ 2022) :
    get_date_pairs fq s e =
      .ok ((List.range' (yearOf s) (yearOf e + 1 - yearOf s)).bind
        fun y => seasonPairs fq y s e (seasonStartD y) (seasonEndD y)) := by
  unfold get_date_pairs
  rw [if_neg hbig]
  exact seasonsLoop_ok fq s e _ hyears

theorem countP_bind {α β : Type} (g : α → List β) (p : β → Bool) :
    ∀ l : List α, (l.bind g).countP p = (l.map fun a => (g a).countP p).sum := by
  intro l
  induction l with
  | nil => rfl
  | cons a t ih => simp [List.cons_bind, List.countP_append, ih]

theorem sum_map_ite_eq_count (y : Nat) :
    ∀ l : List Nat, (l.map fun x => if x = y then 1 else 0).sum = l.count y := by
  intro l
  induction l with
  | nil => rfl
  | cons a t ih =>
    simp only [List.map_cons, List.sum_cons, List.count_cons, ih]
    by_cases hay : a = y <;> simp [hay, Nat.add_comm]

/-- The bound the split condition puts on the window length: when the
estimate reaches the ceiling, `f ≥ 15000/806975`, so the day step
`int(2/f)` is at most 107 — strictly smaller than every gap between two
consecutive seasons in the table. -/
theorem splitDelta_le_107 (fq : ℚ) (hf0 : 0 < fq)
    (hbig : ¬ est_rows fq < (MAX_ROWS_PER_REQUEST : ℚ)) : splitDelta fq ≤ 107 := by
  have hge : (15000 : ℚ) ≤ 806975 * fq := by
    have h1 : (MAX_ROWS_PER_REQUEST : ℚ) ≤ est_rows fq := not_lt.mp hbig
    rw [est_rows] at h1
    norm_num [MAX_ROWS_PER_REQUEST, PITCHES_PER_YEAR, GAMES_PER_YEAR,
      GAMES_PER_REGULAR_SEASON, GAMES_PER_POSTSEASON, PITCHES_PER_GAME] at h1
    linarith
  have h3 : ((DAYS_PER_REQUEST : ℚ) - 1) / fq < 108 := by
    rw [div_lt_iff hf0]
    have hfq : (600 : ℚ) / 32299 ≤ fq := by
      rw [div_le_iff (by norm_num)]
      linarith
    norm_num [DAYS_PER_REQUEST, MAX_ROWS_PER_REQUEST, PITCHES_PER_GAME, GAMES_PER_DAY]
    linarith
  have h4 : ⌊((DAYS_PER_REQUEST : ℚ) - 1) / fq⌋ < 108 :=
    Int.floor_lt.mpr (by push_cast; linarith)
  unfold splitDelta
  omega

/-- The window length bound used for the per-request estimate: the day step
times the frequency is at most `DAYS_PER_REQUEST - 1 = 2`. -/
theorem splitDelta_mul_fq_le (fq : ℚ) (hf0 : 0 < fq) :
    (splitDelta fq : ℚ) * fq ≤ 2 := by
  have hDPR : ((DAYS_PER_REQUEST : ℚ) - 1) = 2 := by
    norm_num [DAYS_PER_REQUEST, MAX_ROWS_PER_REQUEST, PITCHES_PER_GAME, GAMES_PER_DAY]
  have hfloor : (⌊((DAYS_PER_REQUEST : ℚ) - 1) / fq⌋ : ℚ) ≤ ((DAYS_PER_REQUEST : ℚ) - 1) / fq :=
    Int.floor_le _
  unfold splitDelta
  rcases le_or_lt ⌊((DAYS_PER_REQUEST : ℚ) - 1) / fq⌋ 0 with hneg | hpos
  · have : (⌊((DAYS_PER_REQUEST : ℚ) - 1) / fq⌋).toNat = 0 := by omega
    rw [this]
    norm_num
  · have hz : ((⌊((DAYS_PER_REQUEST : ℚ) - 1) / fq⌋).toNat : ℤ) =
        ⌊((DAYS_PER_REQUEST : ℚ) - 1) / fq⌋ := Int.toNat_of_nonneg (by omega)
    have htn : ((⌊((DAYS_PER_REQUEST : ℚ) - 1) / fq⌋).toNat : ℚ) =
        (⌊((DAYS_PER_REQUEST : ℚ) - 1) / fq⌋ : ℚ) := by
      exact_mod_cast congrArg (fun z : ℤ => (z : ℚ)) hz
    rw [htn]
    calc (⌊((DAYS_PER_REQUEST : ℚ) - 1) / fq⌋ : ℚ) * fq
        ≤ (((DAYS_PER_REQUEST : ℚ) - 1) / fq) * fq := by
          apply mul_le_mul_of_nonneg_right hfloor (le_of_lt hf0)
      _ = (DAYS_PER_REQUEST : ℚ) - 1 := by
          field_simp
      _ = 2 := hDPR


/-! ## Per-season pair lemmas (for C2) -/

theorem windowWalk_mem_of (delta sE e rs : Nat) (p : Nat × Nat)
    (hp : p ∈ windowWalk delta sE e rs) :
    rs ≤ p.1 ∧ p.1 ≤ min sE e ∧ p.2 = min e (p.1 + delta) :=
  windowWalk_mem delta sE e (min sE e + 1 - rs) rs (le_refl _) p hp

theorem countP_congr' {α : Type} (p q : α → Bool) :
    ∀ l : List α, (∀ a ∈ l, p a = q a) → l.countP p = l.countP q := by
  intro l
  induction l with
  | nil => intro h; rfl
  | cons a t ih =>
    intro h
    rw [List.countP_cons, List.countP_cons, h a (List.mem_cons_self a t),
      ih fun w hw => h w (List.mem_cons_of_mem a hw)]

theorem seasonStart_mono (a b : Nat) (h1 : 2008 ≤ a) (hab : a ≤ b) (h2 : b ≤ 2022) :
    seasonStartD a ≤ seasonStartD b := by
  rcases eq_or_lt_of_le hab with rfl | hlt
  · exact le_refl _
  · have f1 := season_in_year a h1 (by omega)
    have f2 := season_in_year b (by omega) h2
    have f3 := jan1_mono (a + 1) b (by omega) (by omega) (by omega)
    omega

/-- A day that lies in some season, at or after `y`'s January 1st and at
most 107 days past `y`'s season end, lies in season `y` itself: the day
step is smaller than every inter-season gap. -/
theorem season_day_unique (d y yd : Nat) (hy1 : 2008 ≤ y) (hy2 : y ≤ 2022)
    (hyd1 : 2008 ≤ yd) (hyd2 : yd ≤ 2022)
    (hd1 : seasonStartD yd ≤ d) (hd2 : d ≤ seasonEndD yd)
    (hlo : dayNum y 1 1 ≤ d) (hhi : d ≤ seasonEndD y + 107) : yd = y := by
  rcases lt_trichotomy yd y with hlt | heq | hgt
  · have g1 := season_in_year yd hyd1 hyd2
    have g2 := jan1_mono (yd + 1) y (by omega) (by omega) (by omega)
    omega
  · exact heq
  · have g1 := seasonStart_mono (y + 1) yd (by omega) (by omega) hyd2
    have g2 := season_gap y hy1 (by omega)
    omega

theorem inSeasonB_iff (d : Nat) : inSeasonB d = true ↔
    ∃ y, 2008 ≤ y ∧ y ≤ 2022 ∧ seasonStartD y ≤ d ∧ d ≤ seasonEndD y := by
  unfold inSeasonB
  rw [List.any_eq_true]
  constructor
  · rintro ⟨y, hy, hb⟩
    rw [List.mem_range'_1] at hy
    simp only [Bool.and_eq_true, decide_eq_true_eq] at hb
    exact ⟨y, hy.1, by omega, hb.1, hb.2⟩
  · rintro ⟨y, h1, h2, h3, h4⟩
    refine ⟨y, ?_, by simp [h3, h4]⟩
    rw [List.mem_range'_1]
    omega

/-- An in-season day of season `y` inside the query range is covered by
exactly one of season `y`'s emitted pairs. -/
theorem seasonPairs_countP_in (fq : ℚ) (y s e d : Nat)
    (hy1 : 2008 ≤ y) (hy2 : y ≤ 2022)
    (hss : seasonStartD y ≤ d) (hsE : d ≤ seasonEndD y)
    (hs : s ≤ d) (he : d ≤ e) :
    (seasonPairs fq y s e (seasonStartD y) (seasonEndD y)).countP
      (fun p => decide (p.1 ≤ d ∧ d ≤ p.2)) = 1 := by
  have hjan := season_in_year y hy1 hy2
  unfold seasonPairs
  rw [List.countP_map]
  rw [countP_congr' _ (fun q => decide (q.1 ≤ d ∧ d ≤ q.2)) _ ?_]
  · exact windowWalk_countP_one (splitDelta fq) (seasonEndD y) e d
      (min (seasonEndD y) e + 1 - max (seasonStartD y) s) (max (seasonStartD y) s)
      (le_refl _) (by omega) (by omega)
  · intro q hq
    by_cases hq1 : q.1 = seasonStartD y
    · simp only [Function.comp_apply, hq1, if_pos]
      have t1 : dayNum y 1 1 ≤ d := by omega
      have t2 : seasonStartD y ≤ d := hss
      simp [t1, t2]
    · simp only [Function.comp_apply, if_neg hq1]

/-- A day before season `y`'s January 1st, or more than the day step past
season `y`'s end, is covered by none of season `y`'s emitted pairs. -/
theorem seasonPairs_countP_out (fq : ℚ) (y s e d : Nat)
    (hy1 : 2008 ≤ y) (hy2 : y ≤ 2022)
    (hmiss : d < dayNum y 1 1 ∨ seasonEndD y + splitDelta fq < d) :
    (seasonPairs fq y s e (seasonStartD y) (seasonEndD y)).countP
      (fun p => decide (p.1 ≤ d ∧ d ≤ p.2)) = 0 := by
  have hjan := season_in_year y hy1 hy2
  rw [List.countP_eq_zero]
  intro p hp
  obtain ⟨q, hq, rfl⟩ := List.mem_map.mp hp
  have hb := windowWalk_mem_of (splitDelta fq) (seasonEndD y) e (max (seasonStartD y) s) q hq
  simp only [decide_eq_true_eq, not_and, not_le]
  intro h1
  by_cases hq1 : q.1 = seasonStartD y
  · simp only [hq1, if_pos] at h1
    rcases hmiss with hm | hm
    · omega
    · omega
  · simp only [if_neg hq1] at h1
    rcases hmiss with hm | hm
    · omega
    · omega


/--
C2 (amended): for every query whose estimated rows reach the ceiling, with
running frequency in (0,1] and resolved dates inside the supported
2008-2022 table with start ≤ end, the emitted date pairs satisfy:
(a) the in-season days inside any one emitted pair all belong to a single
season; (b) every in-season day of the requested range is covered by
exactly one emitted pair (off-season days may be uncovered — the ranges do
not cover inter-season gaps — or, near January 1st, doubly covered);
(c) each pair's estimated row count over its in-season days — per-day
baseline × frequency × number of in-season days — is at most the ceiling.
-/
theorem C2_split_invariants (fq : ℚ) (s e : Nat) (L : List (Nat × Nat))
    (hf0 : 0 < fq) (hf1 : fq ≤ 1) (hse : s ≤ e)
    (hs : dayNum 2008 1 1 ≤ s) (he : e < dayNum 2023 1 1)
    (hbig : ¬ est_rows fq < (MAX_ROWS_PER_REQUEST : ℚ))
    (hL : get_date_pairs fq s e = .ok L) :
    (∀ p ∈ L, ∃ y, SEASON_DATES y ≠ none ∧
        ∀ d, p.1 ≤ d → d ≤ p.2 → inSeasonB d = true →
          seasonStartD y ≤ d ∧ d ≤ seasonEndD y) ∧
    (∀ d, s ≤ d → d ≤ e → inSeasonB d = true →
        L.countP (fun p => decide (p.1 ≤ d ∧ d ≤ p.2)) = 1) ∧
    (∀ p ∈ L, ((PITCHES_PER_GAME * GAMES_PER_DAY : Nat) : ℚ) * fq *
        (((Finset.Icc p.1 p.2).filter (fun d => inSeasonB d = true)).card : ℚ) ≤
        (MAX_ROWS_PER_REQUEST : ℚ)) := by
  have hys := yearOf_spec s hs (lt_of_le_of_lt hse he)
  have hes := yearOf_spec e (le_trans hs hse) he
  have hdelta := splitDelta_le_107 fq hf0 hbig
  have hyears : ∀ y ∈ List.range' (yearOf s) (yearOf e + 1 - yearOf s),
      2008 ≤ y ∧ y ≤ 2022 := by
    intro y hy
    rw [List.mem_range'_1] at hy
    omega
  have hLeq := get_date_pairs_ok_eq fq s e hbig hyears
  rw [hL] at hLeq
  have hLv : L = (List.range' (yearOf s) (yearOf e + 1 - yearOf s)).bind
      fun y => seasonPairs fq y s e (seasonStartD y) (seasonEndD y) :=
    (Except.ok.inj hLeq)
  subst hLv
  refine ⟨?_, ?_, ?_⟩
  · -- (a) one season per pair
    intro p hp
    obtain ⟨y', hy', hpmem⟩ := List.mem_bind.mp hp
    have hy'b := hyears y' hy'
    have hjan := season_in_year y' hy'b.1 hy'b.2
    refine ⟨y', by rw [seasonDates_eq y' hy'b.1 hy'b.2]; simp, ?_⟩
    intro d hd1 hd2 hdis
    obtain ⟨q, hq, hpq⟩ := List.mem_map.mp hpmem
    have hb := windowWalk_mem_of (splitDelta fq) (seasonEndD y') e
      (max (seasonStartD y') s) q hq
    obtain ⟨yd, hyd1, hyd2, hyd3, hyd4⟩ := (inSeasonB_iff d).mp hdis
    have hp1 : dayNum y' 1 1 ≤ p.1 ∧ p.2 ≤ seasonEndD y' + splitDelta fq := by
      rw [← hpq]
      by_cases hq1 : q.1 = seasonStartD y'
      · simp only [hq1, if_pos]
        constructor
        · exact le_refl _
        · omega
      · simp only [if_neg hq1]
        constructor
        · omega
        · omega
    have hyd : yd = y' := season_day_unique d y' yd hy'b.1 hy'b.2 hyd1 hyd2 hyd3 hyd4
      (by omega) (by omega)
    subst hyd
    exact ⟨hyd3, hyd4⟩
  · -- (b) exact cover of in-season days
    intro d hd1 hd2 hdis
    obtain ⟨yd, hyd1, hyd2, hyd3, hyd4⟩ := (inSeasonB_iff d).mp hdis
    have hydlo : yearOf s ≤ yd := by
      by_contra h
      push_neg at h
      have g1 := season_in_year yd hyd1 hyd2
      have g2 := jan1_mono (yd + 1) (yearOf s) (by omega) (by omega) (by omega)
      omega
    have hydhi : yd ≤ yearOf e := by
      by_contra h
      push_neg at h
      have g1 := season_in_year yd hyd1 hyd2
      have g2 := jan1_mono (yearOf e + 1) yd (by omega) (by omega) (by omega)
      omega
    rw [countP_bind]
    have hcnt : ∀ y' ∈ List.range' (yearOf s) (yearOf e + 1 - yearOf s),
        (seasonPairs fq y' s e (seasonStartD y') (seasonEndD y')).countP
          (fun p => decide (p.1 ≤ d ∧ d ≤ p.2)) = if y' = yd then 1 else 0 := by
      intro y' hy'
      have hy'b := hyears y' hy'
      by_cases hyy : y' = yd
      · subst hyy
        rw [if_pos rfl]
        exact seasonPairs_countP_in fq y' s e d hy'b.1 hy'b.2 hyd3 hyd4 hd1 hd2
      · rw [if_neg hyy]
        apply seasonPairs_countP_out fq y' s e d hy'b.1 hy'b.2
        rcases Nat.lt_or_ge yd y' with hlt | hge
        · left
          have g1 := season_in_year yd hyd1 hyd2
          have g2 := jan1_mono (yd + 1) y' (by omega) (by omega) (by omega)
          omega
        · right
          have hlt' : y' < yd := by omega
          have g1 := seasonStart_mono (y' + 1) yd (by omega) (by omega) hyd2
          have g2 := season_gap y' hy'b.1 (by omega)
          omega
    rw [List.map_congr_left hcnt, sum_map_ite_eq_count yd]
    have hnd : (List.range' (yearOf s) (yearOf e + 1 - yearOf s)).Nodup :=
      List.nodup_range' (yearOf s) (yearOf e + 1 - yearOf s)
    have hmem : yd ∈ List.range' (yearOf s) (yearOf e + 1 - yearOf s) := by
      rw [List.mem_range'_1]
      omega
    exact List.count_eq_one_of_mem hnd hmem
  · -- (c) per-request in-season estimate under the ceiling
    intro p hp
    obtain ⟨y', hy', hpmem⟩ := List.mem_bind.mp hp
    have hy'b := hyears y' hy'
    have hjan := season_in_year y' hy'b.1 hy'b.2
    obtain ⟨q, hq, hpq⟩ := List.mem_map.mp hpmem
    have hb := windowWalk_mem_of (splitDelta fq) (seasonEndD y') e
      (max (seasonStartD y') s) q hq
    have hsub : (Finset.Icc p.1 p.2).filter (fun d => inSeasonB d = true) ⊆
        Finset.Icc q.1 q.2 := by
      intro d hd
      rw [Finset.mem_filter, Finset.mem_Icc] at hd
      rw [Finset.mem_Icc]
      obtain ⟨⟨hdl, hdr⟩, hdis⟩ := hd
      obtain ⟨yd, hyd1, hyd2, hyd3, hyd4⟩ := (inSeasonB_iff d).mp hdis
      have hp2 : p.2 = q.2 := by rw [← hpq]
      have hp1 : dayNum y' 1 1 ≤ p.1 := by
        rw [← hpq]
        show dayNum y' 1 1 ≤ (if q.1 = seasonStartD y' then dayNum y' 1 1 else q.1)
        split
        · exact le_refl _
        · omega
      have hyd : yd = y' := season_day_unique d y' yd hy'b.1 hy'b.2 hyd1 hyd2 hyd3 hyd4
        (by omega) (by omega)
      rw [hyd] at hyd3 hyd4
      constructor
      · by_cases hq1 : q.1 = seasonStartD y'
        · omega
        · have hpeq : p.1 = q.1 := by
            rw [← hpq]
            show (if q.1 = seasonStartD y' then dayNum y' 1 1 else q.1) = q.1
            rw [if_neg hq1]
          omega
      · omega
    have hcard : (((Finset.Icc p.1 p.2).filter (fun d => inSeasonB d = true)).card : ℚ) ≤
        (splitDelta fq : ℚ) + 1 := by
      have h1 := Finset.card_le_card hsub
      have h2 : (Finset.Icc q.1 q.2).card = q.2 + 1 - q.1 := Nat.card_Icc q.1 q.2
      have h3 : ((Finset.Icc p.1 p.2).filter (fun d => inSeasonB d = true)).card ≤
          splitDelta fq + 1 := by omega
      exact_mod_cast h3
    have hbase : ((PITCHES_PER_GAME * GAMES_PER_DAY : Nat) : ℚ) = 4875 := by
      norm_num [PITCHES_PER_GAME, GAMES_PER_DAY]
    have hmax : (MAX_ROWS_PER_REQUEST : ℚ) = 15000 := by
      norm_num [MAX_ROWS_PER_REQUEST]
    have key := splitDelta_mul_fq_le fq hf0
    have c1 : (0 : ℚ) ≤ fq := le_of_lt hf0
    have c3 : fq * (((Finset.Icc p.1 p.2).filter (fun d => inSeasonB d = true)).card : ℚ) ≤
        fq * ((splitDelta fq : ℚ) + 1) := mul_le_mul_of_nonneg_left hcard c1
    have c5 : fq * (((Finset.Icc p.1 p.2).filter (fun d => inSeasonB d = true)).card : ℚ) ≤
        3 := by nlinarith [key, hf1]
    rw [hbase, hmax]
    nlinarith [c5]


/-- The two-season query 2021-11-01 .. 2022-04-08 at frequency 1, evaluated
through the splitter: one request at the tail of the 2021 season, then one
request for the spring of 2022 rewritten to start at 2022-01-01. -/
theorem gap_query_pairs :
    get_date_pairs 1 (dayNum 2021 11 1) (dayNum 2022 4 8) =
      .ok [(dayNum 2021 11 1, dayNum 2021 11 3), (dayNum 2022 1 1, dayNum 2022 4 8)] := by
  have hbig : ¬ est_rows 1 < (MAX_ROWS_PER_REQUEST : ℚ) := by
    norm_num [est_rows, PITCHES_PER_YEAR, GAMES_PER_YEAR, GAMES_PER_REGULAR_SEASON,
      GAMES_PER_POSTSEASON, PITCHES_PER_GAME, MAX_ROWS_PER_REQUEST]
  have hd : splitDelta 1 = 2 := by
    norm_num [splitDelta, DAYS_PER_REQUEST, MAX_ROWS_PER_REQUEST, PITCHES_PER_GAME,
      GAMES_PER_DAY]
    rfl
  have step1 : get_date_pairs 1 (dayNum 2021 11 1) (dayNum 2022 4 8) =
      .ok (seasonPairs 1 2021 (dayNum 2021 11 1) (dayNum 2022 4 8)
            (dayNum 2021 4 1) (dayNum 2021 11 2) ++
          (seasonPairs 1 2022 (dayNum 2021 11 1) (dayNum 2022 4 8)
            (dayNum 2022 4 7) (dayNum 2022 11 5) ++ [])) := by
    unfold get_date_pairs
    rw [if_neg hbig]
    rfl
  have step2 : seasonPairs 1 2021 (dayNum 2021 11 1) (dayNum 2022 4 8)
      (dayNum 2021 4 1) (dayNum 2021 11 2) =
      [(dayNum 2021 11 1, dayNum 2021 11 3)] := by
    unfold seasonPairs
    rw [hd]
    rfl
  have step3 : seasonPairs 1 2022 (dayNum 2021 11 1) (dayNum 2022 4 8)
      (dayNum 2022 4 7) (dayNum 2022 11 5) =
      [(dayNum 2022 1 1, dayNum 2022 4 8)] := by
    unfold seasonPairs
    rw [hd]
    rfl
  rw [step1, step2, step3]
  rfl

/-- Witness for C2 at a concrete over-ceiling two-season query: the
in-season day 2021-11-02 inside the range is covered exactly once. -/
theorem C2_split_invariants_witness :
    (0 : ℚ) < 1 ∧ dayNum 2008 1 1 ≤ dayNum 2021 11 1 ∧
    inSeasonB (dayNum 2021 11 2) = true ∧
    ([(dayNum 2021 11 1, dayNum 2021 11 3), (dayNum 2022 1 1, dayNum 2022 4 8)] :
        List (Nat × Nat)).countP
      (fun p => decide (p.1 ≤ dayNum 2021 11 2 ∧ dayNum 2021 11 2 ≤ p.2)) = 1 := by
  refine ⟨by norm_num, by decide, by decide, ?_⟩
  exact (C2_split_invariants 1 (dayNum 2021 11 1) (dayNum 2022 4 8)
      [(dayNum 2021 11 1, dayNum 2021 11 3), (dayNum 2022 1 1, dayNum 2022 4 8)]
      (by norm_num) (le_refl 1) (by decide) (by decide) (by decide)
      (by norm_num [est_rows, PITCHES_PER_YEAR, GAMES_PER_YEAR, GAMES_PER_REGULAR_SEASON,
        GAMES_PER_POSTSEASON, PITCHES_PER_GAME, MAX_ROWS_PER_REQUEST])
      gap_query_pairs).2.1
    (dayNum 2021 11 2) (by decide) (by decide) (by decide)

/--
C2 counterexample: the emitted request list does NOT cover the full
requested range: for the over-ceiling query 2021-11-01 .. 2022-04-08 at
frequency 1 the day 2021-12-01 lies inside the requested range but inside
no emitted request — the splitter leaves the inter-season gap uncovered.
-/
theorem C2_counterexample :
    ¬ est_rows 1 < (MAX_ROWS_PER_REQUEST : ℚ) ∧
    get_date_pairs 1 (dayNum 2021 11 1) (dayNum 2022 4 8) =
      .ok [(dayNum 2021 11 1, dayNum 2021 11 3), (dayNum 2022 1 1, dayNum 2022 4 8)] ∧
    dayNum 2021 11 1 ≤ dayNum 2021 12 1 ∧ dayNum 2021 12 1 ≤ dayNum 2022 4 8 ∧
    ([(dayNum 2021 11 1, dayNum 2021 11 3), (dayNum 2022 1 1, dayNum 2022 4 8)] :
        List (Nat × Nat)).countP
      (fun p => decide (p.1 ≤ dayNum 2021 12 1 ∧ dayNum 2021 12 1 ≤ p.2)) = 0 := by
  refine ⟨?_, gap_query_pairs, by decide, by decide, by decide⟩
  norm_num [est_rows, PITCHES_PER_YEAR, GAMES_PER_YEAR, GAMES_PER_REGULAR_SEASON,
    GAMES_PER_POSTSEASON, PITCHES_PER_GAME, MAX_ROWS_PER_REQUEST]


/-! ## Escaping and delimiting (`field.py`, select fields)

`SingleSelectField.get_params` escapes dots (`param.replace(".", "\\.")`),
`get_values` unescapes them; `MultiSelectField` joins escaped slugs with a
delimiter character.  These string edits are modelled on `List Char`
(Python `str.replace` scans left to right, non-overlapping). -/

/-- `value.replace(".", "\\.")` on the character list. -/
def escDotsL : List Char → List Char
  | [] => []
  | c :: rest => if c = '.' then '\\' :: '.' :: escDotsL rest else c :: escDotsL rest

/-- `value.replace("\\.", ".")` on the character list. -/
def unescDotsL : List Char → List Char
  | [] => []
  | [c] => [c]
  | c1 :: c2 :: rest =>
    if c1 = '\\' ∧ c2 = '.' then '.' :: unescDotsL rest
    else c1 :: unescDotsL (c2 :: rest)

/-- `value.replace(".", "\\.")`. -/
def escDots (v : String) : String := ⟨escDotsL v.data⟩

/-- `value.replace("\\.", ".")`. -/
def unescDots (v : String) : String := ⟨unescDotsL v.data⟩

/-- `delimiter.join(parts)` on character lists. -/
def joinDelim (d : Char) : List (List Char) → List Char
  | [] => []
  | [p] => p
  | p :: q :: rest => p ++ d :: joinDelim d (q :: rest)

/-- `text.split(delimiter)` on character lists (Python semantics: splitting
the empty string yields `[""]`). -/
def splitDelim (d : Char) : List Char → List (List Char)
  | [] => [[]]
  | c :: rest =>
    match splitDelim d rest with
    | [] => [[]]
    | p :: ps => if c = d then [] :: p :: ps else (c :: p) :: ps

theorem unescDotsL_cons (c : Char) (l : List Char) (hc : c ≠ '\\') :
    unescDotsL (c :: l) = c :: unescDotsL l := by
  cases l with
  | nil => rfl
  | cons c2 rest =>
    rw [unescDotsL, if_neg]
    intro h
    exact hc h.1

theorem unescDotsL_escDotsL_append (l m : List Char) (hl : '\\' ∉ l) :
    unescDotsL (escDotsL l ++ m) = l ++ unescDotsL m := by
  induction l with
  | nil => rfl
  | cons c rest ih =>
    have hc : c ≠ '\\' := fun h => hl (h ▸ List.mem_cons_self c rest)
    have hrest : '\\' ∉ rest := fun h => hl (List.mem_cons_of_mem c h)
    by_cases hdot : c = '.'
    · subst hdot
      rw [escDotsL, if_pos rfl]
      show unescDotsL ('\\' :: '.' :: (escDotsL rest ++ m)) = _
      rw [unescDotsL, if_pos ⟨rfl, rfl⟩, ih hrest]
      rfl
    · rw [escDotsL, if_neg hdot]
      show unescDotsL (c :: (escDotsL rest ++ m)) = _
      rw [unescDotsL_cons c _ hc, ih hrest]
      rfl

theorem unescDotsL_escDotsL (l : List Char) (hl : '\\' ∉ l) :
    unescDotsL (escDotsL l) = l := by
  have h := unescDotsL_escDotsL_append l [] hl
  simpa [unescDotsL] using h

theorem unescDotsL_join_escaped (d : Char) (hd1 : d ≠ '\\') :
    ∀ (parts : List (List Char)) (m : List Char), (∀ p ∈ parts, '\\' ∉ p) →
      unescDotsL (joinDelim d (parts.map escDotsL) ++ m) =
        joinDelim d parts ++ unescDotsL m := by
  intro parts
  induction parts with
  | nil => intro m h; rfl
  | cons p rest ih =>
    intro m h
    have hp : '\\' ∉ p := h p (List.mem_cons_self p rest)
    cases rest with
    | nil =>
      show unescDotsL (escDotsL p ++ m) = p ++ unescDotsL m
      exact unescDotsL_escDotsL_append p m hp
    | cons q rest' =>
      show unescDotsL (escDotsL p ++ (d :: joinDelim d (List.map escDotsL (q :: rest')))
          ++ m) = (p ++ d :: joinDelim d (q :: rest')) ++ unescDotsL m
      rw [List.append_assoc, unescDotsL_escDotsL_append p _ hp, List.append_assoc]
      congr 1
      rw [List.cons_append, unescDotsL_cons d _ hd1]
      rw [ih m fun w hw => h w (List.mem_cons_of_mem p hw)]
      rfl

theorem splitDelim_no_delim (d : Char) :
    ∀ p : List Char, d ∉ p → splitDelim d p = [p] := by
  intro p
  induction p with
  | nil => intro h; rfl
  | cons c t ih =>
    intro h
    have hc : c ≠ d := fun hh => h (hh ▸ List.mem_cons_self c t)
    rw [splitDelim, ih fun hh => h (List.mem_cons_of_mem c hh)]
    simp [hc]

theorem splitDelim_append (d : Char) :
    ∀ (p l : List Char) (q : List Char) (ps : List (List Char)),
      splitDelim d l = q :: ps → d ∉ p →
      splitDelim d (p ++ l) = (p ++ q) :: ps := by
  intro p
  induction p with
  | nil => intro l q ps h hp; simpa using h
  | cons c t ih =>
    intro l q ps h hp
    have hc : c ≠ d := fun hh => hp (hh ▸ List.mem_cons_self c t)
    have ht := ih l q ps h fun hh => hp (List.mem_cons_of_mem c hh)
    show splitDelim d (c :: (t ++ l)) = ((c :: t) ++ q) :: ps
    rw [splitDelim, ht]
    simp [hc]

theorem splitDelim_join (d : Char) :
    ∀ parts : List (List Char), parts ≠ [] → (∀ p ∈ parts, d ∉ p) →
      splitDelim d (joinDelim d parts) = parts := by
  intro parts
  induction parts with
  | nil => intro h; exact absurd rfl h
  | cons p rest ih =>
    intro _ h
    have hp : d ∉ p := h p (List.mem_cons_self p rest)
    cases rest with
    | nil => exact splitDelim_no_delim d p hp
    | cons q rest' =>
      have hrest := ih (by simp) fun w hw => h w (List.mem_cons_of_mem p hw)
      show splitDelim d (p ++ d :: joinDelim d (q :: rest')) = p :: q :: rest'
      have hmid : splitDelim d (d :: joinDelim d (q :: rest')) =
          [] :: q :: rest' := by
        rw [splitDelim, hrest]
        simp
      have := splitDelim_append d p (d :: joinDelim d (q :: rest')) [] (q :: rest') hmid hp
      simpa using this

theorem joinDelim_concat_empty (d : Char) :
    ∀ parts : List (List Char), parts ≠ [] →
      joinDelim d (parts ++ [[]]) = joinDelim d parts ++ [d] := by
  intro parts
  induction parts with
  | nil => intro h; exact absurd rfl h
  | cons p rest ih =>
    intro _
    cases rest with
    | nil => rfl
    | cons q rest' =>
      show p ++ d :: joinDelim d ((q :: rest') ++ [[]]) =
        (p ++ d :: joinDelim d (q :: rest')) ++ [d]
      rw [ih (by simp)]
      simp


/-! ## SingleSelectField and MultiSelectField (`field.py`)

Python dicts of choices/aliases/frequencies are modelled as association
lists; `str.lower()` as a character-wise lowering. -/

/-- Python dict `.get`/`in` on an association list. -/
def alookup {β : Type} (l : List (String × β)) (k : String) : Option β :=
  (l.find? (fun p => p.1 == k)).map (·.2)

/-- `str.lower()` (character-wise). -/
def pyLower (v : String) : String := ⟨v.data.map Char.toLower⟩

/-- An argument to a select field's `get_params`: `None`, a scalar
(stringified), or a sequence of strings. -/
inductive SelectInput where
  | noneI
  | scalar (s : String)
  | list (vs : List String)

structure SingleSelectField where
  slug : String
  choices : List (String × String) := []
  frequencies : List (String × ℚ) := []

namespace SingleSelectField

/-- `SingleSelectField._validate_values`: falsy becomes `""`; a sequence of
more than one value raises `TooManyValuesError(max_values=1)`; a one-item
sequence is unwrapped. -/
def validate_values (_f : SingleSelectField) (input : SelectInput) :
    Except PError String :=
  match input with
  | .noneI => .ok ""
  | .scalar s => .ok s
  | .list [] => .ok ""
  | .list [v] => .ok v
  | .list _ => .error (.tooManyValuesError 1)

/-- `SingleSelectField._get_param`: an empty value encodes to `""`; a value
whose lowering is a choice name encodes to that choice's slug; a value that
is itself a choice slug passes through; anything else raises
`FieldValueError`. -/
def get_param (f : SingleSelectField) (value : String) : Except PError String :=
  if value = "" then .ok ""
  else match alookup f.choices (pyLower value) with
    | some slugv => .ok slugv
    | none =>
      if (f.choices.map (·.2)).contains value then .ok value
      else .error (.fieldValueError value)

/-- `SingleSelectField.get_params`: validate, resolve, escape dots. -/
def get_params (f : SingleSelectField) (input : SelectInput) : Except PError Params := do
  let value ← f.validate_values input
  let param ← f.get_param value
  .ok [(f.slug, [escDots param])]

/-- `SingleSelectField.get_values`: `params[self.slug][0].replace("\\.", ".")`
(`KeyError`/`IndexError` if absent or empty). -/
def get_values (f : SingleSelectField) (ps : Params) : Except PError String :=
  match Params.get ps f.slug with
  | some (v :: _) => .ok (unescDots v)
  | some [] => .error .indexError
  | none => .error .keyError

/-- `SingleSelectField.get_frequency`. -/
def get_frequency (f : SingleSelectField) (ps : Params) : Except PError ℚ :=
  (f.get_values ps).map fun v =>
    (alookup f.frequencies v).getD ((alookup f.frequencies "default").getD 1)

end SingleSelectField

structure MultiSelectField where
  slug : String
  choices : List (String × String) := []
  frequencies : List (String × ℚ) := []
  aliases : List (String × List String) := []
  delimiter : Char := '|'
  add_trailing_delimiter : Bool := true

namespace MultiSelectField

/-- `MultiSelectField._validate_values`. -/
def input_values (input : SelectInput) : List String :=
  match input with
  | .noneI => [""]
  | .scalar s => [s]
  | .list vs => if vs = [] then [""] else vs

/-- `MultiSelectField._get_param`: the set of slugs one value contributes.
Note the source looks the guard key up lowered but then subscripts with the
UN-lowered value (`self.choices[value]`, `self.aliases[value]`), so a
capitalised choice name whose exact form is not a key raises `KeyError`. -/
def get_param (f : MultiSelectField) (value : String) : Except PError (List String) :=
  if value = "" then .ok []
  else match alookup f.choices (pyLower value) with
    | some _ =>
      match alookup f.choices value with
      | some slugv => .ok [slugv]
      | none => .error .keyError
    | none =>
      match alookup f.aliases (pyLower value) with
      | some _ =>
        match alookup f.aliases value with
        | some slugs => .ok slugs
        | none => .error .keyError
      | none =>
        if (f.choices.map (·.2)).contains value then .ok [value]
        else .error (.fieldValueError value)

/-- The accumulation loop of `MultiSelectField.get_params`
(`params |= self._get_param(value)` over the validated values). -/
def collect (f : MultiSelectField) : List String → Except PError (List String)
  | [] => .ok []
  | v :: rest => do
    let ps ← f.get_param v
    let r ← collect f rest
    .ok (ps ++ r)

/-- `sorted(params)` where `params` is a Python set: the ascending
enumeration of the distinct accumulated slugs. -/
def sortedDedup (l : List String) : List String := pySorted l.dedup

/-- `MultiSelectField.get_params`: accumulate the slug set, sort it, escape
dots, join with the delimiter (plus a trailing delimiter if configured). -/
def get_params (f : MultiSelectField) (input : SelectInput) : Except PError Params := do
  let all ← f.collect (input_values input)
  let param_list := (sortedDedup all).map escDots
  .ok [(f.slug,
    [⟨joinDelim f.delimiter (param_list.map String.data) ++
      (if f.add_trailing_delimiter then [f.delimiter] else [])⟩])]

/-- `MultiSelectField.get_values`: unescape, split on the delimiter, drop
the trailing empty piece when a trailing delimiter is configured. -/
def get_values (f : MultiSelectField) (ps : Params) : Except PError (List String) :=
  match Params.get ps f.slug with
  | some (v :: _) =>
    let values := (splitDelim f.delimiter (unescDots v).data).map
      fun l => (⟨l⟩ : String)
    .ok (if f.add_trailing_delimiter then values.dropLast else values)
  | some [] => .error .indexError
  | none => .error .keyError

/-- `MultiSelectField.get_frequency`: sum of the values' frequencies,
capped at 1. -/
def get_frequency (f : MultiSelectField) (ps : Params) : Except PError ℚ :=
  (f.get_values ps).map fun values =>
    let dflt := (alookup f.frequencies "default").getD 1
    let frequency_sum := (values.map fun v => (alookup f.frequencies v).getD dflt).sum
    if frequency_sum ≤ 1 then frequency_sum else 1

end MultiSelectField


/-! ## Round-trip lemmas (for C6) -/

theorem alookup_mem {β : Type} (l : List (String × β)) (k : String) (b : β)
    (h : alookup l k = some b) : ∃ a, (a, b) ∈ l := by
  unfold alookup at h
  cases hf : l.find? (fun p => p.1 == k) with
  | none => rw [hf] at h; exact absurd h (by simp)
  | some pr =>
    rw [hf] at h
    have hmem := List.mem_of_find?_eq_some hf
    have hb : pr.2 = b := by simpa using h
    exact ⟨pr.1, by rw [← hb]; exact hmem⟩

theorem Params.get_self (k : String) (vs : List String) :
    Params.get [(k, vs)] k = some vs := by
  simp [Params.get]

/-- Whatever `SingleSelectField._get_param` resolves to contains no
backslash, provided the configured slugs contain none. -/
theorem SingleSelectField.get_param_no_backslash (f : SingleSelectField)
    (value p : String)
    (hwf : ∀ pr ∈ f.choices, '\\' ∉ (pr.2 : String).data)
    (h : f.get_param value = .ok p) : '\\' ∉ p.data := by
  unfold get_param at h
  by_cases hv : value = ""
  · rw [if_pos hv] at h
    have hp : "" = p := Except.ok.inj h
    rw [← hp]
    simp [String.data]
  · rw [if_neg hv] at h
    cases hl : alookup f.choices (pyLower value) with
    | some slugv =>
      rw [hl] at h
      have hp : slugv = p := Except.ok.inj h
      obtain ⟨a, ha⟩ := alookup_mem _ _ _ hl
      exact hp ▸ hwf (a, slugv) ha
    | none =>
      rw [hl] at h
      by_cases hc : (f.choices.map (·.2)).contains value
      · rw [if_pos hc] at h
        have hp : value = p := Except.ok.inj h
        have hmem : value ∈ f.choices.map (·.2) := by simpa using hc
        obtain ⟨pr, hpr, hpe⟩ := List.mem_map.mp hmem
        rw [← hp, ← hpe]
        exact hwf pr hpr
      · rw [if_neg hc] at h
        exact absurd h (by simp)


/-- SingleSelect round trip: decoding the encoded parameters recovers the
resolved (slug-canonical) form of the value. -/
theorem SingleSelectField.decode_encode_single (f : SingleSelectField)
    (input : SelectInput) (ps : Params)
    (hwf : ∀ pr ∈ f.choices, '\\' ∉ (pr.2 : String).data)
    (hps : f.get_params input = .ok ps) :
    ∃ p, (f.validate_values input).bind f.get_param = .ok p ∧
      f.get_values ps = .ok p := by
  unfold get_params at hps
  cases hv : f.validate_values input with
  | error e =>
    rw [hv] at hps
    exact Except.noConfusion (show (Except.error e : Except PError Params) = .ok ps from hps)
  | ok v =>
    rw [hv] at hps
    cases hp : f.get_param v with
    | error e =>
      rw [show ((Except.ok v : Except PError String) >>= fun value => do
            let param ← f.get_param value
            Except.ok [(f.slug, [escDots param])]) =
          ((f.get_param v).bind fun param => Except.ok [(f.slug, [escDots param])])
          from rfl, hp] at hps
      exact Except.noConfusion
        (show (Except.error e : Except PError Params) = .ok ps from hps)
    | ok p =>
      rw [show ((Except.ok v : Except PError String) >>= fun value => do
            let param ← f.get_param value
            Except.ok [(f.slug, [escDots param])]) =
          ((f.get_param v).bind fun param => Except.ok [(f.slug, [escDots param])])
          from rfl, hp] at hps
      have hpsv : [(f.slug, [escDots p])] = ps := Except.ok.inj hps
      refine ⟨p, by simp [Except.bind, hp], ?_⟩
      rw [← hpsv]
      unfold get_values
      rw [Params.get_self]
      have hnb := f.get_param_no_backslash v p hwf hp
      have heq : unescDots (escDots p) = p := by
        unfold unescDots escDots
        rw [show (⟨escDotsL p.data⟩ : String).data = escDotsL p.data from rfl]
        rw [unescDotsL_escDotsL p.data hnb]
      show Except.ok (unescDots (escDots p)) = Except.ok p
      rw [heq]

theorem except_bind_ok {α β : Type} (x : Except PError α) (g : α → Except PError β)
    (b : β) (h : x.bind g = .ok b) : ∃ a, x = .ok a ∧ g a = .ok b := by
  cases x with
  | error e => exact absurd h (by simp [Except.bind])
  | ok a => exact ⟨a, rfl, h⟩

theorem mem_insertSorted (a x : String) :
    ∀ l, x ∈ insertSorted a l ↔ x = a ∨ x ∈ l := by
  intro l
  induction l with
  | nil => simp [insertSorted]
  | cons b t ih =>
    unfold insertSorted
    split
    · simp only [List.mem_cons, ih]
      tauto
    · rw [List.mem_cons]

theorem mem_pySorted (x : String) : ∀ l, x ∈ pySorted l ↔ x ∈ l := by
  intro l
  induction l with
  | nil => simp [pySorted]
  | cons a t ih =>
    unfold pySorted
    rw [mem_insertSorted]
    simp [ih]

/-- Every slug `MultiSelectField._get_param` can contribute is free of
backslashes and of the delimiter, provided the configuration is. -/
theorem MultiSelectField.get_param_good (f : MultiSelectField) (value : String)
    (ws : List String)
    (hwfc : ∀ pr ∈ f.choices, '\\' ∉ (pr.2 : String).data ∧ f.delimiter ∉ (pr.2 : String).data)
    (hwfa : ∀ pr ∈ f.aliases, ∀ v ∈ pr.2, '\\' ∉ (v : String).data ∧ f.delimiter ∉ v.data)
    (h : f.get_param value = .ok ws) :
    ∀ w ∈ ws, '\\' ∉ w.data ∧ f.delimiter ∉ w.data := by
  unfold get_param at h
  by_cases hv : value = ""
  · rw [if_pos hv] at h
    have hw : ([] : List String) = ws := Except.ok.inj h
    rw [← hw]
    simp
  · rw [if_neg hv] at h
    cases hl : alookup f.choices (pyLower value) with
    | some cv =>
      rw [hl] at h
      cases hl2 : alookup f.choices value with
      | some slugv =>
        rw [hl2] at h
        have hw : [slugv] = ws := Except.ok.inj h
        rw [← hw]
        intro w hwm
        rw [List.mem_singleton] at hwm
        obtain ⟨a, ha⟩ := alookup_mem _ _ _ hl2
        exact hwm ▸ hwfc (a, slugv) ha
      | none =>
        rw [hl2] at h
        exact absurd h (by simp)
    | none =>
      rw [hl] at h
      cases ha : alookup f.aliases (pyLower value) with
      | some av =>
        rw [ha] at h
        cases ha2 : alookup f.aliases value with
        | some slugs =>
          rw [ha2] at h
          have hw : slugs = ws := Except.ok.inj h
          obtain ⟨a, ham⟩ := alookup_mem _ _ _ ha2
          intro w hwm
          exact hwfa (a, slugs) ham w (hw ▸ hwm)
        | none =>
          rw [ha2] at h
          exact absurd h (by simp)
      | none =>
        rw [ha] at h
        by_cases hc : (f.choices.map (·.2)).contains value
        · rw [if_pos hc] at h
          have hw : [value] = ws := Except.ok.inj h
          rw [← hw]
          intro w hwm
          rw [List.mem_singleton] at hwm
          have hmem : value ∈ f.choices.map (·.2) := by simpa using hc
          obtain ⟨pr, hpr, hpe⟩ := List.mem_map.mp hmem
          rw [hwm, ← hpe]
          exact hwfc pr hpr
        · rw [if_neg hc] at h
          exact absurd h (by simp)

theorem MultiSelectField.collect_good (f : MultiSelectField)
    (hwfc : ∀ pr ∈ f.choices, '\\' ∉ (pr.2 : String).data ∧ f.delimiter ∉ (pr.2 : String).data)
    (hwfa : ∀ pr ∈ f.aliases, ∀ v ∈ pr.2, '\\' ∉ (v : String).data ∧ f.delimiter ∉ v.data) :
    ∀ vs all, f.collect vs = .ok all →
      ∀ w ∈ all, '\\' ∉ w.data ∧ f.delimiter ∉ w.data := by
  intro vs
  induction vs with
  | nil =>
    intro all h
    have : ([] : List String) = all := Except.ok.inj h
    rw [← this]
    simp
  | cons v rest ih =>
    intro all h
    have h' := show (f.get_param v).bind (fun ps => (f.collect rest).bind fun r =>
        (.ok (ps ++ r) : Except PError (List String))) = .ok all from h
    obtain ⟨ps0, hps0, h2⟩ := except_bind_ok _ _ _ h'
    obtain ⟨r0, hr0, h3⟩ := except_bind_ok _ _ _ h2
    have hall : ps0 ++ r0 = all := Except.ok.inj h3
    rw [← hall]
    intro w hwm
    rcases List.mem_append.mp hwm with hw | hw
    · exact f.get_param_good v ps0 hwfc hwfa hps0 w hw
    · exact ih r0 hr0 w hw

/-- MultiSelect round trip: decoding the encoded parameters recovers the
sorted deduplicated resolved slug list (when at least one slug was
resolved). -/
theorem MultiSelectField.decode_encode_multi (f : MultiSelectField)
    (input : SelectInput) (ps : Params)
    (hwfc : ∀ pr ∈ f.choices, '\\' ∉ (pr.2 : String).data ∧ f.delimiter ∉ (pr.2 : String).data)
    (hwfa : ∀ pr ∈ f.aliases, ∀ v ∈ pr.2, '\\' ∉ (v : String).data ∧ f.delimiter ∉ v.data)
    (hdel : f.delimiter ≠ '\\')
    (hps : f.get_params input = .ok ps) :
    ∃ all, f.collect (input_values input) = .ok all ∧
      (sortedDedup all ≠ [] → f.get_values ps = .ok (sortedDedup all)) := by
  unfold get_params at hps
  have h' := show (f.collect (input_values input)).bind (fun all =>
      (.ok [(f.slug,
        [⟨joinDelim f.delimiter (((sortedDedup all).map escDots).map String.data) ++
          (if f.add_trailing_delimiter then [f.delimiter] else [])⟩])] :
        Except PError Params)) = .ok ps from hps
  obtain ⟨all, hall, h2⟩ := except_bind_ok _ _ _ h'
  have hpsv : ([(f.slug,
      [⟨joinDelim f.delimiter (((sortedDedup all).map escDots).map String.data) ++
        (if f.add_trailing_delimiter then [f.delimiter] else [])⟩])] : Params) = ps :=
    Except.ok.inj h2
  refine ⟨all, hall, fun hne => ?_⟩
  rw [← hpsv]
  unfold get_values
  rw [Params.get_self]
  have hgood : ∀ w ∈ sortedDedup all, '\\' ∉ w.data ∧ f.delimiter ∉ w.data := by
    intro w hw
    have : w ∈ all := by
      have h1 := (mem_pySorted w (all.dedup)).mp hw
      exact List.mem_dedup.mp h1
    exact f.collect_good hwfc hwfa _ all hall w this
  have hmapdata : ((sortedDedup all).map escDots).map String.data =
      ((sortedDedup all).map String.data).map escDotsL := by
    rw [List.map_map, List.map_map]
    rfl
  have hgoodL : ∀ p ∈ (sortedDedup all).map String.data, '\\' ∉ p := by
    intro p hp
    obtain ⟨w, hw, rfl⟩ := List.mem_map.mp hp
    exact (hgood w hw).1
  have hgoodD : ∀ p ∈ (sortedDedup all).map String.data, f.delimiter ∉ p := by
    intro p hp
    obtain ⟨w, hw, rfl⟩ := List.mem_map.mp hp
    exact (hgood w hw).2
  have hneL : (sortedDedup all).map String.data ≠ [] := by
    intro hcon
    exact hne (List.map_eq_nil_iff.mp hcon)
  have hmk : ((sortedDedup all).map String.data).map
      (fun l => (⟨l⟩ : String)) = sortedDedup all := by
    rw [List.map_map]
    have : ((fun l => (⟨l⟩ : String)) ∘ String.data) = id := by
      funext w
      rfl
    rw [this, List.map_id]
  by_cases htr : f.add_trailing_delimiter
  · rw [if_pos htr]
    show Except.ok (if f.add_trailing_delimiter then _ else _) = _
    rw [if_pos htr]
    have hun : unescDots ⟨joinDelim f.delimiter
        (((sortedDedup all).map escDots).map String.data) ++ [f.delimiter]⟩ =
        ⟨joinDelim f.delimiter ((sortedDedup all).map String.data) ++ [f.delimiter]⟩ := by
      unfold unescDots
      rw [show (⟨joinDelim f.delimiter (((sortedDedup all).map escDots).map String.data) ++
        [f.delimiter]⟩ : String).data = joinDelim f.delimiter
          (((sortedDedup all).map escDots).map String.data) ++ [f.delimiter] from rfl]
      rw [hmapdata, unescDotsL_join_escaped f.delimiter hdel _ _ hgoodL]
      rfl
    rw [hun]
    rw [show (⟨joinDelim f.delimiter ((sortedDedup all).map String.data) ++
      [f.delimiter]⟩ : String).data = joinDelim f.delimiter
        ((sortedDedup all).map String.data) ++ [f.delimiter] from rfl]
    rw [← joinDelim_concat_empty f.delimiter _ hneL]
    rw [splitDelim_join f.delimiter _ (by simp [hneL]) ?hgd]
    case hgd =>
      intro p hp
      rcases List.mem_append.mp hp with hp1 | hp2
      · exact hgoodD p hp1
      · rw [List.mem_singleton] at hp2
        rw [hp2]
        simp
    rw [List.map_append, hmk]
    show Except.ok ((sortedDedup all ++ [("" : String)]).dropLast) = _
    rw [List.dropLast_concat]
  · rw [if_neg htr]
    show Except.ok (if f.add_trailing_delimiter then _ else _) = _
    rw [if_neg htr]
    have hun : unescDots ⟨joinDelim f.delimiter
        (((sortedDedup all).map escDots).map String.data) ++ []⟩ =
        ⟨joinDelim f.delimiter ((sortedDedup all).map String.data)⟩ := by
      unfold unescDots
      rw [show (⟨joinDelim f.delimiter (((sortedDedup all).map escDots).map String.data) ++
        []⟩ : String).data = joinDelim f.delimiter
          (((sortedDedup all).map escDots).map String.data) ++ [] from rfl]
      rw [hmapdata, unescDotsL_join_escaped f.delimiter hdel _ _ hgoodL]
      rw [show unescDotsL [] = ([] : List Char) from rfl, List.append_nil]
    rw [hun]
    rw [show (⟨joinDelim f.delimiter ((sortedDedup all).map String.data)⟩ : String).data =
      joinDelim f.delimiter ((sortedDedup all).map String.data) from rfl]
    rw [splitDelim_join f.delimiter _ hneL hgoodD]
    rw [hmk]

namespace MetricField

/-- The `while` loop of `MetricField.get_values`, with explicit fuel (the
source increments `counter` until `params.get(f"metric_{counter}", [""])[0]`
is falsy; on any parameter dict a `get_params` output can produce, the very
first probe of `metric_1` already exits, so the fuel never runs out on the
inputs considered here). -/
def get_values_go (slug : String) (ps : Params) : Nat → Nat → Except PError (String × String)
  | 0, _ => .ok ("", "")
  | fuel + 1, counter =>
    let param := ((Params.get ps ("metric_" ++ toString counter)).getD [""]).headD ""
    if param = "" then .ok ("", "")
    else if param = slug then
      match Params.get ps ("metric_" ++ toString counter ++ "_gt"),
            Params.get ps ("metric_" ++ toString counter ++ "_lt") with
      | some (g :: _), some (l :: _) => .ok (g, l)
      | some [], _ => .error .indexError
      | _, some [] => .error .indexError
      | _, _ => .error .keyError
    else get_values_go slug ps fuel (counter + 1)

/-- `MetricField.get_values`: scan the counter-indexed slots
`metric_1, metric_2, …` for this field's slug; return `("", "")` when the
scan exits. -/
def get_values (slug : String) (ps : Params) : Except PError (String × String) :=
  get_values_go slug ps (ps.length + 1) 1

/-- On its own (un-renumbered) `get_params` output, whose keys are
`metric`/`metric_gt`/`metric_lt`, `get_values` probes `metric_1`, finds
nothing, and returns `("", "")` — the encoded bounds are not recovered. -/
theorem get_values_fresh (s0 slg g l : String) :
    get_values s0 [("metric", [slg]), ("metric_gt", [g]), ("metric_lt", [l])] =
      .ok ("", "") := rfl

theorem decode_encode_lost (f : MetricField) (mv : MetricInput) (ps : Params)
    (hps : f.get_params mv = .ok ps) : get_values f.slug ps = .ok ("", "") := by
  unfold MetricField.get_params at hps
  have h' := show (f.validate_values mv).bind (fun mvv =>
      (f.get_range_extremes mvv).bind fun ext =>
        (.ok [("metric", [f.slug]),
          ("metric_gt", [match ext.1 with | some q => floatStr q | none => ""]),
          ("metric_lt", [match ext.2 with | some q => floatStr q | none => ""])] :
          Except PError Params)) = .ok ps from hps
  obtain ⟨mvv, hmv, h2⟩ := except_bind_ok _ _ _ h'
  obtain ⟨ext, hext, h3⟩ := except_bind_ok _ _ _ h2
  have hpsv := Except.ok.inj h3
  rw [← hpsv]
  exact get_values_fresh f.slug _ _ _

end MetricField

namespace PlayerField

/-- `PlayerField.get_values`: `params[self.slug]` (a `KeyError` when the
slug is absent). -/
def get_values (slug : String) (ps : Params) : Except PError (List String) :=
  match Params.get ps slug with
  | some l => .ok l
  | none => .error .keyError

end PlayerField

/--
C6 (amended): decoding the encoded parameters reproduces the value up to
the field's canonicalisation for the SingleSelect, MultiSelect, DateRange
and PlayerLookup variants — the canonical form being the resolved slug
(single), the sorted deduplicated resolved slug set (multi, when
nonempty), the validated date (date), and the sorted list of existing
identifiers (player) — and `get_values` never raises on parameters
produced by the same field's `get_params`.  The law FAILS for MetricRange:
its `get_values` reads the counter-indexed slots (`metric_1`, …) that only
exist after query-level renumbering, so on its own `get_params` output it
returns `("", "")` (without raising).
-/
theorem C6_roundtrip_by_variant :
    (∀ (f : SingleSelectField) (input : SelectInput) (ps : Params),
      (∀ pr ∈ f.choices, '\\' ∉ (pr.2 : String).data) →
      f.get_params input = .ok ps →
      ∃ p, (f.validate_values input).bind f.get_param = .ok p ∧
        f.get_values ps = .ok p) ∧
    (∀ (f : MultiSelectField) (input : SelectInput) (ps : Params),
      (∀ pr ∈ f.choices, '\\' ∉ (pr.2 : String).data ∧ f.delimiter ∉ (pr.2 : String).data) →
      (∀ pr ∈ f.aliases, ∀ v ∈ pr.2, '\\' ∉ (v : String).data ∧ f.delimiter ∉ v.data) →
      f.delimiter ≠ '\\' →
      f.get_params input = .ok ps →
      ∃ all, f.collect (MultiSelectField.input_values input) = .ok all ∧
        (MultiSelectField.sortedDedup all ≠ [] →
          f.get_values ps = .ok (MultiSelectField.sortedDedup all))) ∧
    (∀ (f : DateField) (input : DateInput) (v : Option DateYMD) (ps : DateParams),
      f.validate_values input = .ok v → f.get_params input = .ok ps →
      f.get_values ps = v) ∧
    (∀ (tbl : String → Bool) (slug : String) (input : PlayerInput),
      (∀ v ∈ PlayerField.inputValues input, tbl v = true) →
      PlayerField.get_params tbl slug input =
        .ok [(slug, PlayerField.sortKeep (PlayerField.inputValues input))] ∧
      PlayerField.get_values slug
          [(slug, PlayerField.sortKeep (PlayerField.inputValues input))] =
        .ok (PlayerField.sortKeep (PlayerField.inputValues input))) ∧
    (∀ (f : MetricField) (mv : MetricInput) (ps : Params),
      f.get_params mv = .ok ps →
      MetricField.get_values f.slug ps = .ok ("", "")) := by
  refine ⟨SingleSelectField.decode_encode_single, MultiSelectField.decode_encode_multi, ?_, ?_,
    MetricField.decode_encode_lost⟩
  · intro f input v ps hv hps
    unfold DateField.get_params at hps
    rw [hv] at hps
    have hpsv : ([(f.slug, [v])] : DateParams) = ps := Except.ok.inj hps
    rw [← hpsv]
    unfold DateField.get_values
    simp
  · intro tbl slug input h
    have h1 : PlayerField.get_params tbl slug input =
        .ok [(slug, PlayerField.sortKeep (PlayerField.inputValues input))] := by
      unfold PlayerField.get_params PlayerField.validate_values
      rw [PlayerField.filterKnown_all_true tbl _ h]
      rfl
    refine ⟨h1, ?_⟩
    unfold PlayerField.get_values
    rw [Params.get_self]

/-- Witness for C6 on concrete fields of each variant. -/
theorem C6_roundtrip_by_variant_witness :
    (SingleSelectField.get_values
      { slug := "pitch_type", choices := [("4-seam fastball", "FF")] }
      [("pitch_type", [escDots "FF"])] = .ok "FF") ∧
    (PlayerField.get_values "pitchers" [("pitchers", ["543243"])] = .ok ["543243"]) := by
  constructor
  · obtain ⟨p, hp, hv⟩ := C6_roundtrip_by_variant.1
      { slug := "pitch_type", choices := [("4-seam fastball", "FF")] }
      (.scalar "FF") [("pitch_type", [escDots "FF"])]
      (by intro pr hpr; simp at hpr; rw [hpr]; decide)
      (by rfl)
    have hpv : p = "FF" := by
      have : (Except.ok "FF" : Except PError String) = .ok p := by
        rw [← hp]
        rfl
      exact (Except.ok.inj this).symm
    rw [hv, hpv]
  · have h := (C6_roundtrip_by_variant.2.2.2.1 (fun _ => true) "pitchers"
      (.list ["543243"]) (fun _ _ => rfl)).2
    rw [show PlayerField.sortKeep (PlayerField.inputValues (.list ["543243"])) =
      ["543243"] from by decide] at h
    exact h

/--
C6 counterexample: for a MetricRange field, `get_values (get_params [3, 5])`
is `("", "")`, not (any normalisation of) the encoded bounds
`("3.0", "5.0")`: the round-trip law fails for this variant.
-/
theorem C6_counterexample :
    MetricField.get_params { slug := "launch_speed" } (.list [some 3, some 5]) =
      .ok [("metric", ["launch_speed"]), ("metric_gt", ["3.0"]), ("metric_lt", ["5.0"])] ∧
    MetricField.get_values "launch_speed"
        [("metric", ["launch_speed"]), ("metric_gt", ["3.0"]), ("metric_lt", ["5.0"])] =
      .ok ("", "") ∧
    ("", "") ≠ (floatStr 3, floatStr 5) := by
  refine ⟨rfl, rfl, ?_⟩
  intro h
  have h1 : ("" : String) = floatStr 3 := congrArg Prod.fst h
  rw [show floatStr 3 = "3.0" from rfl] at h1
  exact absurd h1 (by decide)

/-! ## Frequencies (for C9)

The per-field frequency tables come from JSON data files that are not part
of the sources here; per the spec they are estimated fractions of the full
result set, modelled as an association-list hypothesis `freqWF` (every
entry in (0, 1]). -/

/-- The base `Field` class of `field.py` (named `BaseField` here because
`Field` clashes with Mathlib's algebra class): just a slug and a frequency
table. -/
structure BaseField where
  slug : String
  frequencies : List (String × ℚ) := []

/-- A frequency table whose entries are valid fractions. -/
def freqWF (l : List (String × ℚ)) : Prop := ∀ pr ∈ l, 0 < pr.2 ∧ pr.2 ≤ 1

/-- Python truthiness of `params.get(slug)` (`None` and `[]` are falsy). -/
def truthyGet : Option (List String) → Bool
  | none => false
  | some [] => false
  | some (_ :: _) => true

/-- `Field.get_frequency`: the `default` entry if the slug has a (truthy)
value in the params, else `1.0`. -/
def BaseField.get_frequency (f : BaseField) (ps : Params) : ℚ :=
  if truthyGet (Params.get ps f.slug) then (alookup f.frequencies "default").getD 1
  else 1

theorem freq_getD_mem (l : List (String × ℚ)) (hwf : freqWF l) (k : String) (q : ℚ)
    (hq : 0 < q ∧ q ≤ 1) :
    0 < (alookup l k).getD q ∧ (alookup l k).getD q ≤ 1 := by
  cases h : alookup l k with
  | none => simpa using hq
  | some b =>
    obtain ⟨a, ha⟩ := alookup_mem _ _ _ h
    simpa using hwf (a, b) ha

theorem filterKnown_ok_all (tbl : String → Bool) :
    ∀ l r, PlayerField.filterKnown tbl l = .ok r →
      r = l ∧ ∀ v ∈ l, tbl v = true := by
  intro l
  induction l with
  | nil =>
    intro r h
    have : ([] : List String) = r := Except.ok.inj h
    exact ⟨this.symm, by simp⟩
  | cons v rest ih =>
    intro r h
    by_cases hv : tbl v = true
    · have h' := show (PlayerField.lookup_id_is_empty tbl v).bind (fun e =>
          (PlayerField.filterKnown tbl rest).bind fun r' =>
            if !e then (.ok (v :: r') : Except PError (List String)) else .ok r') =
          .ok r from h
      rw [show PlayerField.lookup_id_is_empty tbl v = .ok false by
        simp [PlayerField.lookup_id_is_empty, hv]] at h'
      obtain ⟨e0, he0, h2⟩ := except_bind_ok _ _ _ h'
      have he : false = e0 := Except.ok.inj he0
      rw [← he] at h2
      obtain ⟨r', hr', h3⟩ := except_bind_ok _ _ _ h2
      obtain ⟨hre, hall⟩ := ih r' hr'
      have hvr : v :: r' = r :=
        Except.ok.inj (show (Except.ok (v :: r') : Except PError (List String)) = .ok r from h3)
      refine ⟨by rw [← hvr, hre], ?_⟩
      intro w hw
      rcases List.mem_cons.mp hw with rfl | hw'
      · exact hv
      · exact hall w hw'
    · have h' := show (PlayerField.lookup_id_is_empty tbl v).bind (fun e =>
          (PlayerField.filterKnown tbl rest).bind fun r' =>
            if !e then (.ok (v :: r') : Except PError (List String)) else .ok r') =
          .ok r from h
      rw [show PlayerField.lookup_id_is_empty tbl v = .error (.idNotFoundError v) by
        simp [PlayerField.lookup_id_is_empty, hv]] at h'
      exact Except.noConfusion
        (show (Except.error (PError.idNotFoundError v) : Except PError (List String)) =
          .ok r from h')

theorem length_insertSorted (a : String) :
    ∀ l, (insertSorted a l).length = l.length + 1 := by
  intro l
  induction l with
  | nil => rfl
  | cons b t ih =>
    unfold insertSorted
    split
    · simp [ih]
    · simp

theorem length_pySorted : ∀ l : List String, (pySorted l).length = l.length := by
  intro l
  induction l with
  | nil => rfl
  | cons a t ih =>
    unfold pySorted
    rw [length_insertSorted, ih]
    rfl

theorem splitDelim_ne_nil (d : Char) : ∀ l, splitDelim d l ≠ [] := by
  intro l
  induction l with
  | nil => simp [splitDelim]
  | cons c rest ih =>
    rw [splitDelim]
    cases h : splitDelim d rest with
    | nil => simp
    | cons p ps =>
      by_cases hc : c = d <;> simp [hc]


namespace PlayerField

/-- `PlayerField.get_frequency`: `0.01 * len(self.get_values(params))`,
capped at 1. -/
def get_frequency (slug : String) (ps : Params) : Except PError ℚ :=
  (get_values slug ps).map fun vals =>
    let total := ((1 : ℚ) / 100) * vals.length
    if total < 1 then total else 1

theorem inputValues_ne_nil (input : PlayerInput) : inputValues input ≠ [] := by
  cases input with
  | noneI => simp [inputValues]
  | scalar s => simp [inputValues]
  | list vs =>
    unfold inputValues
    by_cases h : vs = [] <;> simp [h]

end PlayerField

theorem base_field_frequency (f : BaseField) (ps : Params) (hwf : freqWF f.frequencies) :
    0 < f.get_frequency ps ∧ f.get_frequency ps ≤ 1 := by
  unfold BaseField.get_frequency
  split
  · exact freq_getD_mem _ hwf "default" 1 (by norm_num)
  · norm_num

theorem single_field_frequency (f : SingleSelectField) (input : SelectInput)
    (ps : Params) (hwf : freqWF f.frequencies) (hps : f.get_params input = .ok ps) :
    ∃ q, f.get_frequency ps = .ok q ∧ 0 < q ∧ q ≤ 1 := by
  unfold SingleSelectField.get_params at hps
  have h' := show (f.validate_values input).bind (fun value =>
      (f.get_param value).bind fun param =>
        (.ok [(f.slug, [escDots param])] : Except PError Params)) = .ok ps from hps
  obtain ⟨v, hv, h2⟩ := except_bind_ok _ _ _ h'
  obtain ⟨p, hp, h3⟩ := except_bind_ok _ _ _ h2
  have hpsv := Except.ok.inj h3
  rw [← hpsv]
  unfold SingleSelectField.get_frequency SingleSelectField.get_values
  rw [Params.get_self]
  refine ⟨_, rfl, ?_⟩
  exact freq_getD_mem _ hwf _ _ (freq_getD_mem _ hwf "default" 1 (by norm_num))

theorem multi_field_frequency (f : MultiSelectField) (input : SelectInput)
    (ps : Params) (hwf : freqWF f.frequencies)
    (hwfc : ∀ pr ∈ f.choices, '\\' ∉ (pr.2 : String).data ∧ f.delimiter ∉ (pr.2 : String).data)
    (hwfa : ∀ pr ∈ f.aliases, ∀ v ∈ pr.2, '\\' ∉ (v : String).data ∧ f.delimiter ∉ v.data)
    (hdel : f.delimiter ≠ '\\')
    (hps : f.get_params input = .ok ps) :
    ∃ q, f.get_frequency ps = .ok q ∧ 0 < q ∧ q ≤ 1 := by
  have hdflt : 0 < (alookup f.frequencies "default").getD 1 ∧
      (alookup f.frequencies "default").getD 1 ≤ 1 :=
    freq_getD_mem _ hwf "default" 1 (by norm_num)
  have hterm : ∀ v : String, 0 < (alookup f.frequencies v).getD
        ((alookup f.frequencies "default").getD 1) ∧
      (alookup f.frequencies v).getD ((alookup f.frequencies "default").getD 1) ≤ 1 :=
    fun v => freq_getD_mem _ hwf v _ hdflt
  have main : ∀ values : List String, values ≠ [] → f.get_values ps = .ok values →
      ∃ q, f.get_frequency ps = .ok q ∧ 0 < q ∧ q ≤ 1 := by
    intro values hne hgv
    have hfq : f.get_frequency ps = .ok (if (values.map fun v =>
          (alookup f.frequencies v).getD ((alookup f.frequencies "default").getD 1)).sum ≤ 1
        then (values.map fun v =>
          (alookup f.frequencies v).getD ((alookup f.frequencies "default").getD 1)).sum
        else 1) := by
      unfold MultiSelectField.get_frequency
      rw [hgv]
      rfl
    have hpos : 0 < (values.map fun v => (alookup f.frequencies v).getD
        ((alookup f.frequencies "default").getD 1)).sum := by
      apply List.sum_pos
      · intro x hx
        obtain ⟨v, hv, rfl⟩ := List.mem_map.mp hx
        exact (hterm v).1
      · simp [hne]
    refine ⟨_, hfq, ?_⟩
    split
    · exact ⟨hpos, by assumption⟩
    · norm_num
  obtain ⟨all, hall, hgv⟩ := f.decode_encode_multi input ps hwfc hwfa hdel hps
  by_cases hone : MultiSelectField.sortedDedup all = []
  · -- no slug was resolved: the decoded value list is [""]
    unfold MultiSelectField.get_params at hps
    have h' := show (f.collect (MultiSelectField.input_values input)).bind (fun all2 =>
        (.ok [(f.slug,
          [⟨joinDelim f.delimiter
              (((MultiSelectField.sortedDedup all2).map escDots).map String.data) ++
            (if f.add_trailing_delimiter then [f.delimiter] else [])⟩])] :
          Except PError Params)) = .ok ps from hps
    obtain ⟨all2, hall2, h2⟩ := except_bind_ok _ _ _ h'
    have haa : all = all2 := by
      rw [hall] at hall2
      exact Except.ok.inj hall2
    rw [← haa, hone] at h2
    have hpsv := Except.ok.inj h2
    apply main [""] (by simp)
    rw [← hpsv]
    unfold MultiSelectField.get_values
    rw [Params.get_self]
    by_cases htr : f.add_trailing_delimiter
    · rw [if_pos htr]
      show Except.ok (if f.add_trailing_delimiter then _ else _) = _
      rw [if_pos htr]
      have hsplit : splitDelim f.delimiter
          (unescDots ⟨joinDelim f.delimiter ([] : List (List Char)) ++ [f.delimiter]⟩).data =
          [[], []] := by
        show splitDelim f.delimiter (unescDots ⟨[f.delimiter]⟩).data = [[], []]
        rw [show (unescDots ⟨[f.delimiter]⟩).data = [f.delimiter] from rfl]
        show (match splitDelim f.delimiter [] with
          | [] => [[]]
          | p :: ps => if f.delimiter = f.delimiter then [] :: p :: ps
                       else (f.delimiter :: p) :: ps) = [[], []]
        simp [splitDelim]
      simp only [List.map_nil] at hsplit ⊢
      rw [hsplit]
      rfl
    · rw [if_neg htr]
      show Except.ok (if f.add_trailing_delimiter then _ else _) = _
      rw [if_neg htr]
      rfl
  · exact main _ hone (hgv hone)

theorem player_field_frequency (tbl : String → Bool) (slug : String)
    (input : PlayerInput) (ps : Params) (h0 : tbl "" = false)
    (hps : PlayerField.get_params tbl slug input = .ok ps) :
    ∃ q, PlayerField.get_frequency slug ps = .ok q ∧ 0 < q ∧ q ≤ 1 := by
  unfold PlayerField.get_params at hps
  cases hval : PlayerField.validate_values tbl input with
  | error e =>
    rw [hval] at hps
    exact absurd hps (by simp [Except.map])
  | ok values =>
    rw [hval] at hps
    have hpsv : ([(slug, PlayerField.sortKeep values)] : Params) = ps := by
      have := hps
      simp only [Except.map] at this
      exact Except.ok.inj this
    obtain ⟨hveq, hall⟩ := filterKnown_ok_all tbl _ _ hval
    have hnz : ∀ v ∈ values, v ≠ "" := by
      intro v hv hcon
      have := hall v (hveq ▸ hv)
      rw [hcon] at this
      rw [h0] at this
      exact Bool.false_ne_true this
    have hlen : (PlayerField.sortKeep values).length = values.length := by
      unfold PlayerField.sortKeep
      rw [List.filter_eq_self.mpr ?hall2, length_pySorted]
      case hall2 =>
        intro v hv
        have := hnz v ((mem_pySorted v values).mp hv)
        simpa using this
    have hvne : values ≠ [] := by
      rw [hveq]
      exact PlayerField.inputValues_ne_nil input
    have hlpos : 1 ≤ (PlayerField.sortKeep values).length := by
      rw [hlen]
      cases values with
      | nil => exact absurd rfl hvne
      | cons a t => simp
    have hcast : (1 : ℚ) ≤ ((PlayerField.sortKeep values).length : ℚ) := by
      exact_mod_cast hlpos
    have htot : 0 < ((1 : ℚ) / 100) * ((PlayerField.sortKeep values).length : ℚ) := by
      linarith
    have hfq : PlayerField.get_frequency slug ps = .ok
        (if ((1 : ℚ) / 100) * ((PlayerField.sortKeep values).length : ℚ) < 1
         then ((1 : ℚ) / 100) * ((PlayerField.sortKeep values).length : ℚ) else 1) := by
      rw [← hpsv]
      unfold PlayerField.get_frequency PlayerField.get_values
      rw [Params.get_self]
      rfl
    refine ⟨_, hfq, ?_⟩
    split
    · exact ⟨htot, le_of_lt (by assumption)⟩
    · norm_num

theorem metric_field_frequency (f : MetricField) (freqs : List (String × ℚ))
    (mv : MetricInput) (ps : Params)
    (h1 : f.slug ≠ "metric") (h2 : f.slug ≠ "metric_gt") (h3 : f.slug ≠ "metric_lt")
    (hps : f.get_params mv = .ok ps) :
    BaseField.get_frequency { slug := f.slug, frequencies := freqs } ps = 1 := by
  unfold MetricField.get_params at hps
  have h' := show (f.validate_values mv).bind (fun mvv =>
      (f.get_range_extremes mvv).bind fun ext =>
        (.ok [("metric", [f.slug]),
          ("metric_gt", [match ext.1 with | some q => floatStr q | none => ""]),
          ("metric_lt", [match ext.2 with | some q => floatStr q | none => ""])] :
          Except PError Params)) = .ok ps from hps
  obtain ⟨mvv, hmv, hh2⟩ := except_bind_ok _ _ _ h'
  obtain ⟨ext, hext, hh3⟩ := except_bind_ok _ _ _ hh2
  have hpsv := Except.ok.inj hh3
  rw [← hpsv]
  unfold BaseField.get_frequency
  have hb1 : (("metric" : String) == f.slug) = false := beq_eq_false_iff_ne.mpr (Ne.symm h1)
  have hb2 : (("metric_gt" : String) == f.slug) = false := beq_eq_false_iff_ne.mpr (Ne.symm h2)
  have hb3 : (("metric_lt" : String) == f.slug) = false := beq_eq_false_iff_ne.mpr (Ne.symm h3)
  simp [Params.get, List.find?, hb1, hb2, hb3, truthyGet]

/--
C9: for every field variant and every parameter mapping produced by that
field's `get_params`, `get_frequency` lies in (0, 1] — proved for the base
`Field` implementation (also used by `DateField`, and by `MetricField`,
whose own wire keys never match its slug, so it always reports 1),
`SingleSelectField`, `MultiSelectField` (well-formed configuration) and
`PlayerField`, under the spec-modelled assumption that every entry of a
frequency table is a fraction in (0, 1] and that the empty string is not a
known player identifier.
-/
theorem C9_frequency_in_unit_interval :
    (∀ (f : BaseField) (ps : Params), freqWF f.frequencies →
      0 < f.get_frequency ps ∧ f.get_frequency ps ≤ 1) ∧
    (∀ (f : SingleSelectField) (input : SelectInput) (ps : Params),
      freqWF f.frequencies → f.get_params input = .ok ps →
      ∃ q, f.get_frequency ps = .ok q ∧ 0 < q ∧ q ≤ 1) ∧
    (∀ (f : MultiSelectField) (input : SelectInput) (ps : Params),
      freqWF f.frequencies →
      (∀ pr ∈ f.choices, '\\' ∉ (pr.2 : String).data ∧ f.delimiter ∉ (pr.2 : String).data) →
      (∀ pr ∈ f.aliases, ∀ v ∈ pr.2, '\\' ∉ (v : String).data ∧ f.delimiter ∉ v.data) →
      f.delimiter ≠ '\\' →
      f.get_params input = .ok ps →
      ∃ q, f.get_frequency ps = .ok q ∧ 0 < q ∧ q ≤ 1) ∧
    (∀ (tbl : String → Bool) (slug : String) (input : PlayerInput) (ps : Params),
      tbl "" = false → PlayerField.get_params tbl slug input = .ok ps →
      ∃ q, PlayerField.get_frequency slug ps = .ok q ∧ 0 < q ∧ q ≤ 1) ∧
    (∀ (f : MetricField) (freqs : List (String × ℚ)) (mv : MetricInput) (ps : Params),
      f.slug ≠ "metric" → f.slug ≠ "metric_gt" → f.slug ≠ "metric_lt" →
      f.get_params mv = .ok ps →
      BaseField.get_frequency { slug := f.slug, frequencies := freqs } ps = 1) :=
  ⟨base_field_frequency, single_field_frequency, multi_field_frequency,
   player_field_frequency, metric_field_frequency⟩

/-- Witness for C9: a base field with no frequency table reports exactly 1
on its own parameter, and a player field with one identifier reports
1/100. -/
theorem C9_frequency_in_unit_interval_witness :
    (0 < BaseField.get_frequency { slug := "game_type" } [("game_type", ["R|"])] ∧
      BaseField.get_frequency { slug := "game_type" } [("game_type", ["R|"])] ≤ 1) ∧
    ∃ q, PlayerField.get_frequency "pitchers" [("pitchers", ["543243"])] = .ok q ∧
      0 < q ∧ q ≤ 1 := by
  constructor
  · exact C9_frequency_in_unit_interval.1 { slug := "game_type" }
      [("game_type", ["R|"])] (by intro pr hpr; simp at hpr)
  · have h := C9_frequency_in_unit_interval.2.2.2.1 (fun v => v == "543243") "pitchers"
      (.list ["543243"]) [("pitchers", ["543243"])] rfl
      (by
        unfold PlayerField.get_params PlayerField.validate_values
        rw [PlayerField.filterKnown_all_true _ _ (by
          intro v hv
          simp [PlayerField.inputValues] at hv
          rw [hv]
          rfl)]
        rfl)
    exact h

end Pastime
